import Mathlib

/-!
Verification development for the `sagemaker-deployment-construct` automation
scripts.  The Python entry points under `src/codes/lambda/` are shallowly
embedded as Lean functions:

* `SyncS3ToAppConfig.handler` embeds
  `src/codes/lambda/appconfig/sync_s3_to_appconfig.py`;
* `ParameterFetcher.handler` embeds
  `src/codes/lambda/appconfig/parameter-fetcher/handler.py`;
* `TriggerModelTraining.handler` embeds
  `src/codes/lambda/trigger_model_training.py`.

JSON documents are modelled by the inductive type `Json` (numbers restricted
to integers, which covers every value these scripts manipulate).  External
collaborators (the object store, the configuration-distribution service, the
training-job service) are passed in as explicit data: the store maps a
(bucket, key) pair to a decoded document or a client error, and the
distribution service supplies the version number, the deployment number and
the sequence of deployment states observed by successive status polls.
Python exceptions are modelled by the `PyError` type threaded through
`Except`; a top-level `try/except` in a script becomes a `match` wrapping the
body of the corresponding handler.
-/

/-- A JSON value.  Numbers are integers: every configuration value handled by
these scripts is an integer or a string, and modelling `num` as `Int` keeps
equality decidable. Objects are association lists in insertion order, the
order Python dictionaries preserve. -/
inductive Json where
  | null : Json
  | bool (b : Bool) : Json
  | num (n : Int) : Json
  | str (s : String) : Json
  | arr (items : List Json) : Json
  | obj (fields : List (String × Json)) : Json
  deriving Repr

namespace Json

mutual

/-- Boolean equality of JSON values. -/
def beq : Json → Json → Bool
  | .null, .null => true
  | .bool a, .bool b => a == b
  | .num a, .num b => a == b
  | .str a, .str b => a == b
  | .arr xs, .arr ys => beqList xs ys
  | .obj xs, .obj ys => beqFields xs ys
  | _, _ => false

/-- Boolean equality of JSON value lists. -/
def beqList (xs ys : List Json) : Bool :=
  match xs, ys with
  | x :: xs, y :: ys => beq x y && beqList xs ys
  | [], [] => true
  | _, _ => false

/-- Boolean equality of JSON field lists. -/
def beqFields (xs ys : List (String × Json)) : Bool :=
  match xs, ys with
  | (k, v) :: xs, (l, w) :: ys => k == l && beq v w && beqFields xs ys
  | [], [] => true
  | _, _ => false

end

instance : BEq Json := ⟨beq⟩

mutual

def eq_of_beq : ∀ {a b : Json}, beq a b = true → a = b
  | .null, .null, _ => rfl
  | .bool _, .bool _, h => by
    simp only [beq, beq_iff_eq] at h; rw [h]
  | .num _, .num _, h => by
    simp only [beq, beq_iff_eq] at h; rw [h]
  | .str _, .str _, h => by
    simp only [beq, beq_iff_eq] at h; rw [h]
  | .arr _, .arr _, h => by
    simp only [beq] at h; rw [eqList_of_beqList h]
  | .obj _, .obj _, h => by
    simp only [beq] at h; rw [eqFields_of_beqFields h]

def eqList_of_beqList : ∀ {xs ys : List Json}, beqList xs ys = true → xs = ys
  | [], [], _ => rfl
  | x :: xs, y :: ys, h => by
    simp only [beqList, Bool.and_eq_true] at h
    rw [eq_of_beq h.1, eqList_of_beqList h.2]

def eqFields_of_beqFields :
    ∀ {xs ys : List (String × Json)}, beqFields xs ys = true → xs = ys
  | [], [], _ => rfl
  | (k, v) :: xs, (l, w) :: ys, h => by
    simp only [beqFields, Bool.and_eq_true, beq_iff_eq] at h
    rw [h.1.1, eq_of_beq h.1.2, eqFields_of_beqFields h.2]

end

mutual

def beq_refl : ∀ a : Json, beq a a = true
  | .null => rfl
  | .bool b => by simp [beq]
  | .num n => by simp [beq]
  | .str s => by simp [beq]
  | .arr xs => by simp only [beq]; exact beqList_refl xs
  | .obj xs => by simp only [beq]; exact beqFields_refl xs

def beqList_refl : ∀ xs : List Json, beqList xs xs = true
  | [] => rfl
  | x :: xs => by
    simp only [beqList, Bool.and_eq_true]
    exact ⟨beq_refl x, beqList_refl xs⟩

def beqFields_refl : ∀ xs : List (String × Json), beqFields xs xs = true
  | [] => rfl
  | (k, v) :: xs => by
    simp only [beqFields, Bool.and_eq_true]
    exact ⟨⟨by simp, beq_refl v⟩, beqFields_refl xs⟩

end

instance : DecidableEq Json := fun a b =>
  if h : beq a b = true then .isTrue (eq_of_beq h)
  else .isFalse (fun he => h (he ▸ beq_refl a))

/-- The keys of an object field list, in order. -/
def keysOf (fs : List (String × Json)) : List String :=
  fs.map Prod.fst

/-- First-occurrence lookup in an object field list (Python dictionaries have
no duplicate keys, so the first occurrence is the only one). -/
def lookupField (fs : List (String × Json)) (k : String) : Option Json :=
  (fs.find? (fun p => p.1 = k)).map Prod.snd

/-- Replace the value of key `k` (first occurrence) in a field list; models
Python dictionary item assignment for an existing key. -/
def setField (fs : List (String × Json)) (k : String) (v : Json) : List (String × Json) :=
  match fs with
  | [] => []
  | p :: rest => if p.1 = k then (k, v) :: rest else p :: setField rest k v

/-- `d.update(e)` for field lists: existing keys keep their position and take
`e`'s value, keys new in `e` are appended in `e`'s order. -/
def pyUpdate (d e : List (String × Json)) : List (String × Json) :=
  (d.map (fun p =>
      match lookupField e p.1 with
      | some v => (p.1, v)
      | none => p)) ++
    e.filter (fun p => !(keysOf d).contains p.1)

end Json

/-- A Python exception value, carrying the text `str(e)` would produce. -/
inductive PyError where
  | typeError (msg : String) : PyError
  | attributeError (msg : String) : PyError
  | valueError (msg : String) : PyError
  | keyError (msg : String) : PyError
  | clientError (msg : String) : PyError
  | indexError (msg : String) : PyError
  deriving Repr, DecidableEq

/-- `str(e)` for a modelled Python exception. -/
def PyError.text : PyError → String
  | .typeError m => m
  | .attributeError m => m
  | .valueError m => m
  | .keyError m => m
  | .clientError m => m
  | .indexError m => m

/-- Python truthiness of an optional string (`None` and `""` are falsy);
this is the test `if not x` applied to `event.get(...)`/`os.environ.get(...)`
results. -/
def truthyOpt (o : Option String) : Bool :=
  match o with
  | none => false
  | some s => s ≠ ""

/-- `charsStartWith needle hay` holds when `needle` begins `hay`. -/
def charsStartWith (needle hay : List Char) : Bool :=
  match needle, hay with
  | a :: as, b :: bs => if a = b then charsStartWith as bs else false
  | [], _ => true
  | _, _ => false

/-- `charsContain needle hay` holds when `needle` occurs contiguously inside
`hay`; it implements the Python substring test `needle in hay`. -/
def charsContain : List Char → List Char → Bool
  | needle, [] => needle.isEmpty
  | needle, h :: t => charsStartWith needle (h :: t) || charsContain needle t

/-- The Python substring test `needle in hay` on strings. -/
def pySubstr (needle hay : String) : Bool :=
  charsContain needle.toList hay.toList

/-- Numeric value of a list of decimal digits. -/
def digitsVal (ds : List Char) : Nat :=
  ds.foldl (fun a c => 10 * a + (c.toNat - 48)) 0

/-- The Python membership test `c in s` for a single character. -/
def strHasChar (s : String) (c : Char) : Bool :=
  s.toList.contains c

/-- Python `str.split` with a one-character separator, on character lists:
always returns at least one (possibly empty) segment, and one extra segment
per separator occurrence.  (The result is never `[]`; the `[]` fallback
below is unreachable.) -/
def splitOnChar (c : Char) : List Char → List (List Char)
  | [] => [[]]
  | x :: rest =>
    if x = c then [] :: splitOnChar c rest
    else
      match splitOnChar c rest with
      | [] => [[x]]
      | s :: ss => (x :: s) :: ss

/-- Python `s.split(sep)` for a one-character separator `sep`. -/
def pySplitChar (s : String) (c : Char) : List String :=
  (splitOnChar c s.toList).map String.mk

/-- Python `s.upper()` (ASCII case mapping suffices for the names used). -/
def pyUpper (s : String) : String :=
  String.mk (s.toList.map Char.toUpper)

/-- Python `s.strip()`: drop whitespace from both ends. -/
def charsTrim (cs : List Char) : List Char :=
  ((cs.dropWhile Char.isWhitespace).reverse.dropWhile Char.isWhitespace).reverse

namespace Json

/-- The Python membership test `key in value`.  Dictionaries test key
membership, lists test element membership, strings test substring
containment; `in` applied to a number, boolean or `None` raises `TypeError`.
-/
def pyContains (v : Json) (key : String) : Except PyError Bool :=
  match v with
  | .obj fs => .ok ((keysOf fs).contains key)
  | .arr items => .ok (items.contains (Json.str key))
  | .str s => .ok (pySubstr key s)
  | .num _ => .error (.typeError ("argument of type \x27int\x27 is not iterable"))
  | .bool _ => .error (.typeError ("argument of type \x27bool\x27 is not iterable"))
  | .null => .error (.typeError ("argument of type \x27NoneType\x27 is not iterable"))

/-- The Python subscript `value[key]` with a string key.  Only dictionaries
support it; a missing key raises `KeyError`, any other value raises
`TypeError`. -/
def pySubscript (v : Json) (key : String) : Except PyError Json :=
  match v with
  | .obj fs =>
    match lookupField fs key with
    | some w => .ok w
    | none => .error (.keyError ("\x27" ++ key ++ "\x27"))
  | _ => .error (.typeError ("value is not subscriptable with a string key"))

/-- The Python call `value.get(key, default)`; only dictionaries have `.get`.
-/
def pyGet (v : Json) (key : String) (dflt : Json) : Except PyError Json :=
  match v with
  | .obj fs =>
    match lookupField fs key with
    | some w => .ok w
    | none => .ok dflt
  | _ => .error (.attributeError ("object has no attribute \x27get\x27"))

/-- The Python call `list(value.keys())`; only dictionaries have `.keys`. -/
def pyKeys (v : Json) : Except PyError (List String) :=
  match v with
  | .obj fs => .ok (keysOf fs)
  | _ => .error (.attributeError ("object has no attribute \x27keys\x27"))

/-- The Python call `base.update(arg)` where `base` is a dictionary: `arg`
must itself be a mapping (the scripts only ever pass dictionaries; the
remaining iterable forms Python accepts are collapsed into the error case).
-/
def pyDictUpdate (base : List (String × Json)) (arg : Json) :
    Except PyError (List (String × Json)) :=
  match arg with
  | .obj e => .ok (pyUpdate base e)
  | _ => .error (.typeError ("update argument is not a mapping"))

end Json

/-- Outcome of one `s3_client.get_object` call followed by UTF-8 decoding and
`json.loads`: either the decoded document, or a `botocore` `ClientError`
carrying its error code and its `str(e)` text. -/
inductive S3GetResult where
  | ok (doc : Json) : S3GetResult
  | err (code msg : String) : S3GetResult
  deriving Repr, DecidableEq

/-- The object store, mapping a bucket and a key to a get-object outcome. -/
def S3Store : Type := String → String → S3GetResult

namespace SyncS3ToAppConfig

/-! ## `src/codes/lambda/appconfig/sync_s3_to_appconfig.py` -/

/-- The environment variables read by the sync handler (lines 24-29). -/
structure SyncEnv where
  application_id : Option String
  environment_id : Option String
  configuration_profile_id : Option String
  deployment_strategy_id : Option String
  config_bucket : Option String

/-- The recognized keys of the sync handler's input event (lines 31-34). -/
structure SyncEvent where
  bucket : Option String
  key : Option String
  wait_for_deployment : Option Bool

/-- The AppConfig client's observable behaviour: the version number returned
by `create_hosted_configuration_version`, the deployment number returned by
`start_deployment`, and the `DeploymentState` returned by the i-th
`get_deployment` call (0-based). -/
structure AppConfigService where
  versionNumber : Nat
  deploymentNumber : Nat
  deploymentState : Nat → String

/-- The body payload of a sync-handler response: either a plain message
string or the success record of line 152-156. -/
inductive SyncBody where
  | msg (s : String) : SyncBody
  | success (versionNumber deploymentNumber : Nat) (configKeys : List String) : SyncBody
  deriving Repr, DecidableEq

/-- A sync-handler response (`statusCode` plus body). -/
structure SyncResponse where
  statusCode : Nat
  body : SyncBody
  deriving Repr, DecidableEq

/-- The names appended to `missing` by lines 38-43, in source order. -/
def syncMissing (env : SyncEnv) (bucket : Option String) : List String :=
  (if truthyOpt env.application_id then [] else ["APPLICATION_ID"]) ++
  (if truthyOpt env.environment_id then [] else ["ENVIRONMENT_ID"]) ++
  (if truthyOpt env.configuration_profile_id then [] else ["CONFIGURATION_PROFILE_ID"]) ++
  (if truthyOpt env.deployment_strategy_id then [] else ["DEPLOYMENT_STRATEGY_ID"]) ++
  (if truthyOpt bucket then [] else ["bucket/CONFIG_BUCKET"])

/-- Lines 74-78: if the base document has a `modelParameters` mapping with a
`training` entry, update that entry in place with the training document's
`Training` section (defaulting to `{}`); otherwise leave the base document
unchanged.  Python raises `TypeError` when a string-keyed subscript is
applied to a non-mapping that passed the membership test, and
`AttributeError` when `.update` or `.get` is requested of a non-mapping. -/
def mergeConfigs (model_config training_config : Json) : Except PyError Json :=
  match model_config with
  | .obj fs =>
    match Json.lookupField fs ("modelParameters") with
    | none => .ok model_config
    | some (.obj mfs) =>
      match Json.lookupField mfs ("training") with
      | none => .ok model_config
      | some (.obj bt) => do
        let arg ← Json.pyGet training_config ("Training") (Json.obj [])
        let merged ← Json.pyDictUpdate bt arg
        .ok (Json.obj (Json.setField fs ("modelParameters")
          (Json.obj (Json.setField mfs ("training") (Json.obj merged)))))
      | some _ => .error (.attributeError ("object has no attribute \x27update\x27"))
    | some mp => do
      let hasTraining ← Json.pyContains mp ("training")
      if hasTraining then .error (.typeError ("value is not subscriptable with a string key"))
      else .ok model_config
  | _ => do
    let hasMp ← Json.pyContains model_config ("modelParameters")
    if hasMp then .error (.typeError ("value is not subscriptable with a string key"))
    else .ok model_config

/-- Lines 52-91: fetch the configuration from the store; on a `NoSuchKey`
client error fall back to loading and merging the two fixed config objects,
any failure of which is reported as a merge error; any other client error is
reported as a retrieval error.  The error side carries the early-return
response (status code and body text). -/
def loadConfig (store : S3Store) (bucket key : String) : Except (Nat × String) Json :=
  match store bucket key with
  | .ok doc => .ok doc
  | .err code msg =>
    if code = "NoSuchKey" then
      match store bucket ("configs/model-config.json") with
      | .ok model_config =>
        match store bucket ("configs/model-training-config.json") with
        | .ok training_config =>
          match mergeConfigs model_config training_config with
          | .ok merged => .ok merged
          | .error e => .error (500, ("Error merging configurations: " ++ e.text))
        | .err _ m => .error (500, ("Error merging configurations: " ++ m))
      | .err _ m => .error (500, ("Error merging configurations: " ++ m))
    else
      .error (500, ("Error retrieving configuration from S3: " ++ msg))

/-- Line 125: `max_wait_time = 300`. -/
def maxWaitTime : Nat := 300

/-- Line 148: `time.sleep(10)`. -/
def sleepInterval : Nat := 10

/-- Line 138/141: is a deployment state terminal? -/
def isTerminalState (s : String) : Bool :=
  s = "COMPLETE" || s = "FAILED" || s = "ROLLED_BACK"

/-- Outcome of the deployment-watch loop, each constructor carrying the
number of `get_deployment` calls that were made. -/
inductive PollOutcome where
  | complete (calls : Nat) : PollOutcome
  | failed (status : String) (calls : Nat) : PollOutcome
  | timedOut (calls : Nat) : PollOutcome
  deriving Repr, DecidableEq

/-- Number of `get_deployment` calls recorded in a poll outcome. -/
def pollCalls : PollOutcome → Nat
  | .complete c => c
  | .failed _ c => c
  | .timedOut c => c

/-- Lines 128-148: the deployment-watch loop.  `i` is the index of the next
status poll, `t` the elapsed wall-clock seconds (each iteration polls once,
taking no modelled time, then sleeps `sleepInterval` seconds); the loop runs
while `t < maxWaitTime`.  On `COMPLETE` it breaks, on `FAILED` or
`ROLLED_BACK` it returns the failure (surfaced by the handler as a 500
response), otherwise it sleeps and re-checks the clock. -/
def pollLoop (f : Nat → String) (i t : Nat) : PollOutcome :=
  if t < maxWaitTime then
    let status := f i
    if status = "COMPLETE" then .complete (i + 1)
    else if status = "FAILED" ∨ status = "ROLLED_BACK" then .failed status (i + 1)
    else pollLoop f (i + 1) (t + sleepInterval)
  else .timedOut i
termination_by maxWaitTime - t
decreasing_by simp only [maxWaitTime, sleepInterval] at *; omega

/-- The body of the sync handler (the code inside the top-level `try` of
lines 23-157); a `.error` value is an exception reaching the top-level
`except`. -/
def handlerBody (env : SyncEnv) (event : SyncEvent) (store : S3Store)
    (svc : AppConfigService) : Except PyError SyncResponse :=
  let bucket : Option String := event.bucket <|> env.config_bucket
  let key : String := (event.key).getD ("configs/model-config.json")
  let wait_for_deployment : Bool := (event.wait_for_deployment).getD true
  if truthyOpt env.application_id && truthyOpt env.environment_id &&
      truthyOpt env.configuration_profile_id && truthyOpt env.deployment_strategy_id &&
      truthyOpt bucket then
    match loadConfig store (bucket.getD ("")) key with
    | .error r => .ok ⟨r.1, .msg r.2⟩
    | .ok config_json =>
      let version_number := svc.versionNumber
      let deployment_id := svc.deploymentNumber
      if wait_for_deployment then
        match pollLoop svc.deploymentState 0 0 with
        | .failed status _ =>
          .ok ⟨500, .msg ("Deployment failed with status: " ++ status)⟩
        | _ => do
          let ks ← Json.pyKeys config_json
          .ok ⟨200, .success version_number deployment_id ks⟩
      else do
        let ks ← Json.pyKeys config_json
        .ok ⟨200, .success version_number deployment_id ks⟩
  else
    .ok ⟨400, .msg ("Missing required parameters: " ++
      String.intercalate (", ") (syncMissing env bucket))⟩

/-- The sync handler: its body wrapped in the top-level `try/except` of
lines 23 and 159-164, which converts any exception into a 500 response whose
body is `str(e)`. -/
def handler (env : SyncEnv) (event : SyncEvent) (store : S3Store)
    (svc : AppConfigService) : SyncResponse :=
  match handlerBody env event store svc with
  | .ok r => r
  | .error e => ⟨500, .msg e.text⟩

end SyncS3ToAppConfig

namespace ParameterFetcher

/-! ## `src/codes/lambda/appconfig/parameter-fetcher/handler.py`

The poll-interval handling of lines 40-49 only computes a value passed to
`start_configuration_session` and cannot raise (its conversion errors are
caught and replaced by the default 30), so it is not modelled.  The
configuration session and retrieval calls of lines 69-83 are modelled by
passing in the decoded configuration document they produce. -/

/-- The recognized keys of the fetch handler's input event (lines 35-38). -/
structure FetchEvent where
  ApplicationId : Option String
  EnvironmentId : Option String
  ConfigurationProfileId : Option String
  ParameterKey : Option String

/-- `event.get(p)` for the three required parameter names (line 57). -/
def eventGet (e : FetchEvent) (p : String) : Option String :=
  if p = "ApplicationId" then e.ApplicationId
  else if p = "EnvironmentId" then e.EnvironmentId
  else if p = "ConfigurationProfileId" then e.ConfigurationProfileId
  else none

/-- The body payload of a fetch-handler response: a message string, a
parameter value (line 120), or the full configuration (line 129). -/
inductive FetchBody where
  | msg (s : String) : FetchBody
  | param (v : Json) : FetchBody
  | config (d : Json) : FetchBody
  deriving Repr, DecidableEq

/-- A fetch-handler response. -/
structure FetchResponse where
  statusCode : Nat
  body : FetchBody
  deriving Repr, DecidableEq

/-- Lines 56-57: the `missing` list — note the test consults
`os.environ.get(p.upper())`, i.e. `APPLICATIONID` and alike, not the
underscored names used as actual fallbacks on lines 35-37. -/
def fetchMissing (event : FetchEvent) (env : String → Option String) : List String :=
  (["ApplicationId", "EnvironmentId", "ConfigurationProfileId"]).filter
    (fun p => !truthyOpt (eventGet event p) && !truthyOpt (env (pyUpper p)))

/-- Lines 92-103: walk the dotted path, testing `key in value` and
subscripting; `.ok none` is the early 404 return for an absent segment,
`.error` a raised exception (e.g. `TypeError` when an intermediate value is
not a container). -/
def traverse (keys : List String) (value : Json) : Except PyError (Option Json) :=
  match keys with
  | [] => .ok (some value)
  | k :: rest => do
    let mem ← Json.pyContains value k
    if mem then do
      let v ← Json.pySubscript value k
      traverse rest v
    else .ok none

/-- The body of the fetch handler (inside the top-level `try` of lines
30-130).  `env` is `os.environ`; `doc` is the decoded configuration document
produced by the session and retrieval calls. -/
def handlerBody (event : FetchEvent) (env : String → Option String) (doc : Json) :
    Except PyError FetchResponse :=
  let application_id : Option String := event.ApplicationId <|> env ("APPLICATION_ID")
  let environment_id : Option String := event.EnvironmentId <|> env ("ENVIRONMENT_ID")
  let configuration_profile_id : Option String :=
    event.ConfigurationProfileId <|> env ("CONFIGURATION_PROFILE_ID")
  if truthyOpt application_id && truthyOpt environment_id &&
      truthyOpt configuration_profile_id then
    let config_content := doc
    if truthyOpt event.ParameterKey then
      let parameter_key := (event.ParameterKey).getD ("")
      if strHasChar parameter_key '.' then
        let keys := pySplitChar parameter_key '.'
        match traverse keys config_content with
        | .ok (some v) => .ok ⟨200, .param v⟩
        | .ok none =>
          .ok ⟨404, .msg ("Parameter " ++ parameter_key ++ " not found in configuration")⟩
        | .error e => .error e
      else do
        let mem ← Json.pyContains config_content parameter_key
        if mem then do
          let v ← Json.pySubscript config_content parameter_key
          .ok ⟨200, .param v⟩
        else
          .ok ⟨404, .msg ("Parameter " ++ parameter_key ++ " not found in configuration")⟩
    else
      .ok ⟨200, .config config_content⟩
  else
    .ok ⟨400, .msg ("Missing required parameters: " ++
      String.intercalate (", ") (fetchMissing event env))⟩

/-- The fetch handler: its body wrapped in the top-level `try/except` of
lines 30 and 132-138, which converts any exception into a 500 response whose
body is `str(e)`. -/
def handler (event : FetchEvent) (env : String → Option String) (doc : Json) :
    FetchResponse :=
  match handlerBody event env doc with
  | .ok r => r
  | .error e => ⟨500, .msg e.text⟩

end ParameterFetcher

namespace TriggerModelTraining

/-! ## `src/codes/lambda/trigger_model_training.py`

This handler has no top-level `try/except`: the S3 load failure is logged
and re-raised (lines 25-27), and every other exception propagates to the
caller, so the embedded handler returns `Except PyError` rather than a bare
response.  `listObjs bucket pre` models the keys of the `Contents` of
`list_objects_v2(Bucket=bucket, Prefix=pre)`; `sagemaker` models
`create_training_job`, mapping the job name to the service response. -/

/-- The recognized keys of the trigger handler's input event. -/
structure TriggerEvent where
  bucket_name : Option String
  config_key : Option String
  role_arn : Option String

/-- The body of the trigger handler's success response (lines 84-92). -/
structure TriggerBody where
  trainingJobName : String
  outputS3Uri : String
  version : Int
  response : String
  deriving Repr, DecidableEq

/-- A trigger-handler response. -/
structure TriggerResponse where
  statusCode : Nat
  body : TriggerBody
  deriving Repr, DecidableEq

/-- The Python conversion `int(s)` on a string: optional sign and at least
one decimal digit after stripping surrounding whitespace, else `ValueError`
(the `+` sign and underscore separators Python also accepts never occur in
these keys and are not modelled). -/
def pyInt (s : String) : Except PyError Int :=
  let cs := charsTrim s.toList
  if cs ≠ [] ∧ cs.all Char.isDigit then
    .ok (digitsVal cs)
  else
    match cs with
    | '-' :: rest =>
      if rest ≠ [] ∧ rest.all Char.isDigit then .ok (-(digitsVal rest : Int))
      else .error (.valueError ("invalid literal for int() with base 10"))
    | _ => .error (.valueError ("invalid literal for int() with base 10"))

/-- The Python negative index `xs[-i]` on a list of strings. -/
def pyNegIndex (xs : List String) (i : Nat) : Except PyError String :=
  if 0 < i ∧ i ≤ xs.length then .ok (xs.getD (xs.length - i) (""))
  else .error (.indexError ("list index out of range"))

/-- Lines 43-44: `[int(obj['Key'].split('/')[-2][1:]) for obj in contents if
'v' in obj['Key']]` over the listed keys; the first conversion or indexing
failure raises. -/
def computeVersions (keys : List String) : Except PyError (List Int) :=
  match keys with
  | [] => .ok []
  | k :: rest =>
    if pySubstr ("v") k then do
      let seg ← pyNegIndex (pySplitChar k '/') 2
      let n ← pyInt (seg.drop 1)
      let more ← computeVersions rest
      .ok (n :: more)
    else computeVersions rest

/-- Line 45: `max(versions) + 1 if versions else 1`. -/
def nextVersion (versions : List Int) : Int :=
  match versions with
  | [] => 1
  | v :: rest => rest.foldl max v + 1

/-- String conversion applied by an f-string placeholder (`str(value)`);
containers are abbreviated, no script interpolates one. -/
def fstr : Json → String
  | .str s => s
  | .num n => toString n
  | .bool true => "True"
  | .bool false => "False"
  | .null => "None"
  | .arr _ => "[...]"
  | .obj _ => "\x7b...\x7d"

/-- A value passed as a string-typed request parameter (`Prefix`); a
non-string raises a `botocore` parameter-validation error. -/
def asString : Json → Except PyError String
  | .str s => .ok s
  | _ => .error (.typeError ("Invalid type for parameter Prefix"))

/-- The trigger handler (`src/codes/lambda/trigger_model_training.py`,
lines 10-92).  The `let _x` bindings record the configuration fields the
`create_training_job` request reads, each of which can raise `KeyError`. -/
def handler (event : TriggerEvent) (env : String → Option String) (store : S3Store)
    (listObjs : String → String → List String) (sagemaker : String → String) :
    Except PyError TriggerResponse :=
  let bucket_name : Option String := event.bucket_name <|> env ("CONFIG_BUCKET_NAME")
  let config_key : String :=
    match event.config_key with
    | some v => v
    | none => (env ("CONFIG_KEY")).getD ("configs/model-training-config.json")
  if truthyOpt bucket_name then do
    let bucket := bucket_name.getD ("")
    let config ← (match store bucket config_key with
      | .ok doc => Except.ok doc
      | .err _ msg => Except.error (PyError.clientError msg))
    let training ← Json.pySubscript config ("Training")
    let training_params ← Json.pySubscript training ("Parameters")
    let resources ← Json.pySubscript training ("Resources")
    let container ← Json.pySubscript training ("Container")
    let output ← Json.pySubscript training ("Output")
    let prefixPath ← asString (← Json.pySubscript output ("s3_path_prefix"))
    let versions ← computeVersions (listObjs bucket prefixPath)
    let next_version := nextVersion versions
    let output_s3_uri :=
      "s3://" ++ bucket ++ "/" ++ prefixPath ++ "/v" ++ toString next_version ++ "/"
    let _role : Option String := event.role_arn <|> env ("SAGEMAKER_ROLE_ARN")
    let _image ← Json.pySubscript container ("image")
    let _instance_type ← Json.pySubscript resources ("instance_type")
    let _instance_count ← Json.pySubscript resources ("instance_count")
    let _volume_size ← Json.pySubscript resources ("volume_size_gb")
    let _max_runtime ← Json.pySubscript resources ("max_runtime_seconds")
    let _dataset ← Json.pySubscript training_params ("dataset")
    let _device ← Json.pySubscript training_params ("device")
    let _num_epochs ← Json.pySubscript training_params ("num_epochs")
    let _batch_size ← Json.pySubscript training_params ("batch_size")
    let _embed_dim ← Json.pySubscript training_params ("embed_dim")
    let _learning_rate ← Json.pySubscript training_params ("learning_rate")
    let _save_model_path ← Json.pySubscript training_params ("save_model_path")
    let _dictionary_path ← Json.pySubscript training_params ("dictionary_path")
    let jobNameRaw ← Json.pySubscript training ("JobNamePrefix")
    let trainingJobName := fstr jobNameRaw ++ "-v" ++ toString next_version
    let resp := sagemaker trainingJobName
    .ok ⟨200, ⟨trainingJobName, output_s3_uri, next_version, resp⟩⟩
  else
    .error (.valueError ("Bucket name must be provided in event or as environment variable"))

end TriggerModelTraining

namespace JsonWire

/-! ## JSON serialization and parsing

`jsonDumps` models `json.dumps(...)` as used on line 101 of the sync script
(the configuration-version content) and `jsonLoads` models
`json.loads(...)` as used on lines 82-83 of the parameter fetcher.  The
model works at the level of Unicode strings: the `encode('utf-8')` /
`decode('utf-8')` pair is the identity on the text.  `jsonDumps` emits the
default separators `", "` and `": "` and escapes the two mandatory
characters and the control range; the non-ASCII `\uXXXX` escaping of
`ensure_ascii` is omitted, which does not affect which documents round-trip.
`jsonLoads` accepts every text `jsonDumps` emits (whitespace after commas
and colons, the standard escape forms) and requires only trailing
whitespace after the document, as `json.loads` does. -/

/-- The hexadecimal digit character for `n < 16` (lowercase, as Python
emits). -/
def hexDigit (n : Nat) : Char :=
  if n < 10 then Char.ofNat (48 + n) else Char.ofNat (87 + n)

/-- Four-digit hexadecimal rendering of `n < 0x10000`, most significant
digit first. -/
def hex4 (n : Nat) : List Char :=
  [hexDigit (n / 4096 % 16), hexDigit (n / 256 % 16), hexDigit (n / 16 % 16),
    hexDigit (n % 16)]

/-- JSON string escaping of one character. -/
def escapeChar (c : Char) : List Char :=
  if c = '"' then ['\\', '"']
  else if c = '\\' then ['\\', '\\']
  else if c.toNat < 32 then '\\' :: 'u' :: hex4 c.toNat
  else [c]

/-- JSON string escaping of a character sequence. -/
def escapeChars : List Char → List Char
  | [] => []
  | c :: rest => escapeChar c ++ escapeChars rest

/-- Decimal rendering of a natural number, most significant digit first. -/
def natChars (n : Nat) : List Char :=
  if h : n < 10 then [Char.ofNat (48 + n)]
  else natChars (n / 10) ++ [Char.ofNat (48 + n % 10)]
termination_by n
decreasing_by exact Nat.div_lt_self (by omega) (by omega)

/-- Decimal rendering of an integer. -/
def intChars (n : Int) : List Char :=
  if n < 0 then '-' :: natChars (-n).toNat else natChars n.toNat

mutual

/-- Serialize a JSON value (the character stream of `json.dumps`). -/
def dumpVal : Json → List Char
  | .null => 'n' :: ['u', 'l', 'l']
  | .bool true => 't' :: ['r', 'u', 'e']
  | .bool false => 'f' :: ['a', 'l', 's', 'e']
  | .num n => intChars n
  | .str s => '"' :: (escapeChars s.toList ++ ['"'])
  | .arr items => '[' :: (dumpItems items ++ [']'])
  | .obj fields => '\x7b' :: (dumpFields fields ++ ['\x7d'])

/-- Serialize array items, separated by `", "`. -/
def dumpItems : List Json → List Char
  | [] => []
  | [x] => dumpVal x
  | x :: y :: rest => dumpVal x ++ (',' :: ' ' :: dumpItems (y :: rest))

/-- Serialize object fields, separated by `", "`, each key rendered as a
JSON string followed by `": "`. -/
def dumpFields : List (String × Json) → List Char
  | [] => []
  | [(k, v)] => '"' :: (escapeChars k.toList ++ ('"' :: ':' :: ' ' :: dumpVal v))
  | (k, v) :: q :: rest =>
    '"' :: (escapeChars k.toList ++ ('"' :: ':' :: ' ' :: (dumpVal v ++
      (',' :: ' ' :: dumpFields (q :: rest)))))

end

/-- `json.dumps` on a document. -/
def jsonDumps (d : Json) : String :=
  String.mk (dumpVal d)

/-- JSON whitespace. -/
def isWsChar (c : Char) : Bool :=
  c = ' ' || c = '\t' || c = '\n' || c = '\r'

/-- Drop leading JSON whitespace. -/
def skipWs (cs : List Char) : List Char :=
  cs.dropWhile isWsChar

/-- A hexadecimal digit character. -/
def isHexDig (c : Char) : Bool :=
  c.isDigit || ('a' ≤ c && c ≤ 'f') || ('A' ≤ c && c ≤ 'F')

/-- Numeric value of a hexadecimal digit character. -/
def hexVal (c : Char) : Nat :=
  if c.isDigit then c.toNat - 48
  else if 'a' ≤ c && c ≤ 'f' then c.toNat - 87
  else c.toNat - 55

/-- Single-character escape shortcuts accepted after a backslash. -/
def unescape (e : Char) : Option Char :=
  if e = '"' then some '"'
  else if e = '\\' then some '\\'
  else if e = '/' then some '/'
  else if e = 'n' then some '\n'
  else if e = 't' then some '\t'
  else if e = 'r' then some '\r'
  else if e = 'b' then some (Char.ofNat 8)
  else if e = 'f' then some (Char.ofNat 12)
  else none

/-- Parse the body of a JSON string after the opening quote, returning the
unescaped characters and the remainder after the closing quote. -/
def parseStringBody : List Char → Option (List Char × List Char)
  | [] => none
  | c :: rest =>
    if c = '"' then some ([], rest)
    else if c = '\\' then
      match rest with
      | 'u' :: h1 :: h2 :: h3 :: h4 :: rest2 =>
        if isHexDig h1 && isHexDig h2 && isHexDig h3 && isHexDig h4 then
          (parseStringBody rest2).map (fun p =>
            (Char.ofNat (hexVal h1 * 4096 + hexVal h2 * 256 + hexVal h3 * 16 + hexVal h4)
              :: p.1, p.2))
        else none
      | e :: rest2 =>
        match unescape e with
        | some x => (parseStringBody rest2).map (fun p => (x :: p.1, p.2))
        | none => none
      | [] => none
    else (parseStringBody rest).map (fun p => (c :: p.1, p.2))

/-- Parse a leading run of decimal digits. -/
def parseNat (cs : List Char) : Option (Nat × List Char) :=
  let ds := cs.takeWhile Char.isDigit
  if ds.isEmpty then none else some (digitsVal ds, cs.dropWhile Char.isDigit)

mutual

/-- Parse one JSON value.  The fuel bounds the nesting recursion; any fuel
of at least `jfuel` of the encoded value suffices. -/
def parseVal : Nat → List Char → Option (Json × List Char)
  | 0, _ => none
  | _ + 1, [] => none
  | fuel + 1, c :: rest =>
    if c = 'n' then
      match rest with
      | 'u' :: 'l' :: 'l' :: r => some (.null, r)
      | _ => none
    else if c = 't' then
      match rest with
      | 'r' :: 'u' :: 'e' :: r => some (.bool true, r)
      | _ => none
    else if c = 'f' then
      match rest with
      | 'a' :: 'l' :: 's' :: 'e' :: r => some (.bool false, r)
      | _ => none
    else if c = '"' then
      (parseStringBody rest).map (fun p => (.str (String.mk p.1), p.2))
    else if c = '[' then
      (parseItems fuel rest).map (fun p => (.arr p.1, p.2))
    else if c = '\x7b' then
      (parseFields fuel rest).map (fun p => (.obj p.1, p.2))
    else if c = '-' then
      (parseNat rest).map (fun p => (.num (-(p.1 : Int)), p.2))
    else
      (parseNat (c :: rest)).map (fun p => (.num (p.1 : Int), p.2))

/-- Parse array items up to and including the closing bracket. -/
def parseItems : Nat → List Char → Option (List Json × List Char)
  | 0, _ => none
  | fuel + 1, cs =>
    match cs with
    | ']' :: r => some ([], r)
    | _ =>
      match parseVal fuel cs with
      | none => none
      | some (v, r) =>
        match r with
        | ',' :: r2 => (parseItems fuel (skipWs r2)).map (fun p => (v :: p.1, p.2))
        | ']' :: r2 => some ([v], r2)
        | _ => none

/-- Parse object fields up to and including the closing brace. -/
def parseFields : Nat → List Char → Option (List (String × Json) × List Char)
  | 0, _ => none
  | fuel + 1, cs =>
    match cs with
    | '\x7d' :: r => some ([], r)
    | '"' :: cs2 =>
      match parseStringBody cs2 with
      | none => none
      | some (kcs, r1) =>
        match r1 with
        | ':' :: r2 =>
          match parseVal fuel (skipWs r2) with
          | none => none
          | some (v, r3) =>
            match r3 with
            | ',' :: r4 =>
              (parseFields fuel (skipWs r4)).map (fun p => ((String.mk kcs, v) :: p.1, p.2))
            | '\x7d' :: r4 => some ([(String.mk kcs, v)], r4)
            | _ => none
        | _ => none
    | _ => none

end

mutual

/-- Fuel sufficient to parse the encoding of a value. -/
def jfuel : Json → Nat
  | .arr items => 1 + jfuelItems items
  | .obj fields => 1 + jfuelFields fields
  | _ => 1

/-- Fuel sufficient to parse encoded array items. -/
def jfuelItems : List Json → Nat
  | [] => 1
  | x :: rest => 1 + max (jfuel x) (jfuelItems rest)

/-- Fuel sufficient to parse encoded object fields. -/
def jfuelFields : List (String × Json) → Nat
  | [] => 1
  | (_, v) :: rest => 1 + max (jfuel v) (jfuelFields rest)

end

/-- `json.loads` on a text: parse one value surrounded by optional
whitespace. -/
def jsonLoads (s : String) : Option Json :=
  match parseVal (s.length + 1) (skipWs s.toList) with
  | some (v, rest) => if skipWs rest = [] then some v else none
  | none => none

end JsonWire

namespace SyncS3ToAppConfig

/-- Line 101: the text submitted as the hosted configuration version content,
`json.dumps(config_json)` (its UTF-8 encoding is the identity at this level).
-/
def publishedContent (config_json : Json) : String :=
  JsonWire.jsonDumps config_json

end SyncS3ToAppConfig

namespace ParameterFetcher

/-- Lines 82-83 of the parameter fetcher: decoding of the fetched
configuration content, `json.loads(content.decode('utf-8'))`. -/
def decodeContent (content : String) : Option Json :=
  JsonWire.jsonLoads content

/-- Pure dotted-path walk through nested objects: `some v` when every
segment is present (descending only through objects), `none` otherwise.
Specification-side description of a fully-present path, used to
characterize the traversal of lines 92-103. -/
def walkPath : Json → List String → Option Json
  | v, [] => some v
  | Json.obj fs, k :: ks =>
    match Json.lookupField fs k with
    | some v => walkPath v ks
    | none => none
  | _, _ :: _ => none

end ParameterFetcher

namespace TriggerModelTraining

/-- A complete training configuration document used to exercise the trigger
handler in the version-computation theorems. -/
def exampleConfig : Json :=
  Json.obj [("Training", Json.obj [
    ("Parameters", Json.obj [("dataset", Json.str ("ag_news")),
      ("device", Json.str ("cpu")), ("num_epochs", Json.num 5),
      ("batch_size", Json.num 64), ("embed_dim", Json.num 64),
      ("learning_rate", Json.num 5), ("save_model_path", Json.str ("m.pth")),
      ("dictionary_path", Json.str ("d.pkl"))]),
    ("Resources", Json.obj [("instance_type", Json.str ("ml.m5.large")),
      ("instance_count", Json.num 1), ("volume_size_gb", Json.num 30),
      ("max_runtime_seconds", Json.num 3600)]),
    ("Container", Json.obj [("image", Json.str ("img"))]),
    ("Output", Json.obj [("s3_path_prefix", Json.str ("models/output"))]),
    ("JobNamePrefix", Json.str ("job"))])]

/-- A store serving `exampleConfig` under the default training-config key. -/
def exampleStore : S3Store := fun _ k =>
  if k = "configs/model-training-config.json" then .ok exampleConfig
  else .err ("NoSuchKey") ("An error occurred (NoSuchKey)")

end TriggerModelTraining

/-! ## Supporting lemmas -/

namespace Json

theorem lookupField_cons (p : String × Json) (fs : List (String × Json)) (k : String) :
    lookupField (p :: fs) k = if p.1 = k then some p.2 else lookupField fs k := by
  simp only [lookupField, List.find?_cons]
  by_cases h : p.1 = k
  · simp [h]
  · simp [h]

theorem lookupField_append (xs ys : List (String × Json)) (k : String) :
    lookupField (xs ++ ys) k =
      match lookupField xs k with
      | some v => some v
      | none => lookupField ys k := by
  induction xs with
  | nil => simp [lookupField]
  | cons p rest ih =>
    rw [List.cons_append, lookupField_cons, lookupField_cons]
    by_cases h : p.1 = k
    · simp [h]
    · simp only [h, if_false, ih]

theorem lookupField_filterNotKeys (d e : List (String × Json)) (k : String) :
    lookupField (e.filter (fun p => !(keysOf d).contains p.1)) k =
      if (keysOf d).contains k then none else lookupField e k := by
  induction e with
  | nil => simp [lookupField]
  | cons p rest ih =>
    by_cases hq : (keysOf d).contains p.1
    · have hq2 : p.1 ∈ keysOf d := by simpa using hq
      rw [List.filter_cons_of_neg (by simpa using hq), ih]
      by_cases h : p.1 = k
      · subst h; simp [hq2, lookupField_cons]
      · rw [lookupField_cons, if_neg h]
    · have hq2 : p.1 ∉ keysOf d := by simpa using hq
      rw [List.filter_cons_of_pos (by simpa using hq), lookupField_cons, lookupField_cons]
      by_cases h : p.1 = k
      · subst h; simp [hq2, hq]
      · simp only [h, if_false, ih]

theorem lookupField_mapUpdate (d e : List (String × Json)) (k : String) :
    lookupField (d.map (fun p =>
        match lookupField e p.1 with
        | some v => (p.1, v)
        | none => p)) k =
      match lookupField d k with
      | some w => some ((lookupField e k).getD w)
      | none => none := by
  induction d with
  | nil => simp [lookupField]
  | cons p rest ih =>
    rw [List.map_cons, lookupField_cons, lookupField_cons]
    by_cases h : p.1 = k
    · subst h
      cases he : lookupField e p.1 <;> simp [he]
    · have h2 : (match lookupField e p.1 with
        | some v => (p.1, v)
        | none => p).1 = p.1 := by
        cases lookupField e p.1 <;> rfl
      rw [h2]
      simp only [h, if_false, ih]

theorem contains_keysOf_iff (d : List (String × Json)) (k : String) :
    (keysOf d).contains k = true ↔ ∃ w, lookupField d k = some w := by
  induction d with
  | nil => simp [keysOf, lookupField]
  | cons p rest ih =>
    rw [keysOf, List.map_cons, List.contains_cons, lookupField_cons]
    by_cases h : p.1 = k
    · simp [h]
    · have : (k == p.1) = false := by
        simp only [beq_eq_false_iff_ne, ne_eq]
        exact fun he => h he.symm
      simp only [this, Bool.false_or, keysOf] at ih ⊢
      rw [if_neg h, ih]

theorem lookupField_pyUpdate_left (d e : List (String × Json)) (k : String) (v : Json)
    (he : lookupField e k = some v) :
    lookupField (pyUpdate d e) k = some v := by
  rw [pyUpdate, lookupField_append, lookupField_mapUpdate, lookupField_filterNotKeys]
  by_cases hc : (keysOf d).contains k = true
  · obtain ⟨w, hw⟩ := (contains_keysOf_iff d k).mp hc
    simp [hw, he]
  · have hd : lookupField d k = none := by
      cases hl : lookupField d k with
      | none => rfl
      | some w => exact absurd ((contains_keysOf_iff d k).mpr ⟨w, hl⟩) hc
    have hc2 : k ∉ keysOf d := by
      intro hm
      exact hc (by simpa using hm)
    simp [hd, hc2, he]

theorem lookupField_setField_self (fs : List (String × Json)) (k : String) (v w : Json)
    (h : lookupField fs k = some w) :
    lookupField (setField fs k v) k = some v := by
  induction fs with
  | nil => simp [lookupField] at h
  | cons p rest ih =>
    rw [lookupField_cons] at h
    rw [setField]
    by_cases hp : p.1 = k
    · rw [if_pos hp, lookupField_cons]; simp
    · rw [if_neg hp, lookupField_cons, if_neg hp]
      rw [if_neg hp] at h
      exact ih h

end Json

namespace SyncS3ToAppConfig

theorem pollLoop_timedOut (f : Nat → String)
    (hnt : ∀ j, sleepInterval * j < maxWaitTime → isTerminalState (f j) = false) :
    ∀ m i t, t = sleepInterval * i → t ≤ maxWaitTime → maxWaitTime - t ≤ m →
      pollLoop f i t = .timedOut (maxWaitTime / sleepInterval) := by
  intro m
  induction m with
  | zero =>
    intro i t ht hle hm
    rw [pollLoop]
    have h1 : ¬ t < maxWaitTime := by omega
    simp only [h1, if_false]
    have : i = maxWaitTime / sleepInterval := by
      simp only [maxWaitTime, sleepInterval] at *; omega
    rw [this]
  | succ m ih =>
    intro i t ht hle hm
    rw [pollLoop]
    by_cases h1 : t < maxWaitTime
    · have hterm := hnt i (by omega)
      simp only [isTerminalState, Bool.or_eq_false_iff, decide_eq_false_iff_not] at hterm
      simp only [h1, if_true, hterm.1.1, hterm.1.2, hterm.2, if_false, or_self]
      have hdvd : t + sleepInterval ≤ maxWaitTime := by
        simp only [maxWaitTime, sleepInterval] at *; omega
      exact ih (i + 1) (t + sleepInterval) (by rw [ht]; ring) hdvd
        (by simp only [maxWaitTime, sleepInterval] at *; omega)
    · simp only [h1, if_false]
      have : i = maxWaitTime / sleepInterval := by
        simp only [maxWaitTime, sleepInterval] at *; omega
      rw [this]

end SyncS3ToAppConfig

namespace SyncS3ToAppConfig

theorem pollLoop_firstTerminal (f : Nat → String) (k : Nat)
    (hk : sleepInterval * k < maxWaitTime)
    (hfirst : ∀ j, j < k → isTerminalState (f j) = false)
    (hterm : isTerminalState (f k) = true) :
    ∀ m i t, t = sleepInterval * i → i ≤ k → k - i ≤ m →
      pollLoop f i t =
        (if f k = "COMPLETE" then .complete (k + 1) else .failed (f k) (k + 1)) := by
  intro m
  induction m with
  | zero =>
    intro i t ht hik hm
    have hi : i = k := by omega
    subst hi
    rw [pollLoop]
    have h1 : t < maxWaitTime := by omega
    simp only [h1, if_true]
    by_cases hc : f i = "COMPLETE"
    · simp only [hc, if_true]
    · simp only [hc, if_false]
      have : f i = "FAILED" ∨ f i = "ROLLED_BACK" := by
        simp only [isTerminalState, Bool.or_eq_true, decide_eq_true_eq] at hterm
        tauto
      simp only [this, if_true]
  | succ m ih =>
    intro i t ht hik hm
    by_cases hi : i = k
    · subst hi
      rw [pollLoop]
      have h1 : t < maxWaitTime := by omega
      simp only [h1, if_true]
      by_cases hc : f i = "COMPLETE"
      · simp only [hc, if_true]
      · simp only [hc, if_false]
        have : f i = "FAILED" ∨ f i = "ROLLED_BACK" := by
          simp only [isTerminalState, Bool.or_eq_true, decide_eq_true_eq] at hterm
          tauto
        simp only [this, if_true]
    · have hlt : i < k := by omega
      rw [pollLoop]
      have h1 : t < maxWaitTime := by
        simp only [maxWaitTime, sleepInterval] at *; omega
      have hnt := hfirst i hlt
      simp only [isTerminalState, Bool.or_eq_false_iff, decide_eq_false_iff_not] at hnt
      simp only [h1, if_true, hnt.1.1, hnt.1.2, hnt.2, if_false, or_self]
      exact ih (i + 1) (t + sleepInterval) (by rw [ht]; ring) (by omega) (by omega)

theorem pollLoop_calls_le (f : Nat → String) :
    ∀ m i t, t = sleepInterval * i → t ≤ maxWaitTime → maxWaitTime - t ≤ m →
      pollCalls (pollLoop f i t) ≤ maxWaitTime / sleepInterval := by
  intro m
  induction m with
  | zero =>
    intro i t ht hle hm
    rw [pollLoop]
    have h1 : ¬ t < maxWaitTime := by omega
    simp only [h1, if_false, pollCalls]
    simp only [maxWaitTime, sleepInterval] at *; omega
  | succ m ih =>
    intro i t ht hle hm
    rw [pollLoop]
    by_cases h1 : t < maxWaitTime
    · simp only [h1, if_true]
      by_cases hc : f i = "COMPLETE"
      · simp only [hc, if_true, pollCalls]
        simp only [maxWaitTime, sleepInterval] at *; omega
      · simp only [hc, if_false]
        by_cases hf : f i = "FAILED" ∨ f i = "ROLLED_BACK"
        · simp only [hf, if_true, pollCalls]
          simp only [maxWaitTime, sleepInterval] at *; omega
        · simp only [hf, if_false]
          exact ih (i + 1) (t + sleepInterval) (by rw [ht]; ring)
            (by simp only [maxWaitTime, sleepInterval] at *; omega)
            (by simp only [maxWaitTime, sleepInterval] at *; omega)
    · simp only [h1, if_false, pollCalls]
      simp only [maxWaitTime, sleepInterval] at *; omega

end SyncS3ToAppConfig

namespace SyncS3ToAppConfig

theorem syncMissing_nil_iff (env : SyncEnv) (b : Option String) :
    syncMissing env b = [] ↔
      (truthyOpt env.application_id && truthyOpt env.environment_id &&
        truthyOpt env.configuration_profile_id && truthyOpt env.deployment_strategy_id &&
        truthyOpt b) = true := by
  by_cases h1 : truthyOpt env.application_id = true <;>
    by_cases h2 : truthyOpt env.environment_id = true <;>
      by_cases h3 : truthyOpt env.configuration_profile_id = true <;>
        by_cases h4 : truthyOpt env.deployment_strategy_id = true <;>
          by_cases h5 : truthyOpt b = true <;>
            simp_all [syncMissing]

end SyncS3ToAppConfig

namespace ParameterFetcher

theorem traverse_absent (pre : List String) :
    ∀ (d : Json) (gs : List (String × Json)) (k : String) (rest : List String),
      walkPath d pre = some (Json.obj gs) → Json.lookupField gs k = none →
      traverse (pre ++ k :: rest) d = .ok none := by
  induction pre with
  | nil =>
    intro d gs k rest hwalk habs
    simp only [walkPath, Option.some_inj] at hwalk
    subst hwalk
    rw [List.nil_append, traverse]
    have hc : (Json.keysOf gs).contains k = false := by
      cases hcc : (Json.keysOf gs).contains k with
      | false => rfl
      | true =>
        obtain ⟨w, hw⟩ := (Json.contains_keysOf_iff gs k).mp hcc
        rw [hw] at habs; cases habs
    have hb : Json.pyContains (Json.obj gs) k = .ok false := by
      have hm : k ∉ Json.keysOf gs := by simpa using hc
      simp [Json.pyContains, hm]
    rw [hb]
    rfl
  | cons p pre ih =>
    intro d gs k rest hwalk habs
    match d, hwalk with
    | Json.obj fs, hwalk =>
      rw [walkPath] at hwalk
      cases hv : Json.lookupField fs p with
      | none => rw [hv] at hwalk; cases hwalk
      | some v =>
        rw [hv] at hwalk
        rw [List.cons_append, traverse]
        have hc : (Json.keysOf fs).contains p = true :=
          (Json.contains_keysOf_iff fs p).mpr ⟨v, hv⟩
        simp only [Json.pyContains, hc, Json.pySubscript, hv, Except.bind]
        simpa using ih v gs k rest hwalk habs

end ParameterFetcher

namespace TriggerModelTraining

theorem foldl_max_facts (l : List Int) :
    ∀ v : Int, (∀ x ∈ l, x ≤ l.foldl max v) ∧ v ≤ l.foldl max v ∧
      (l.foldl max v = v ∨ l.foldl max v ∈ l) := by
  induction l with
  | nil => intro v; exact ⟨by simp, le_refl v, Or.inl rfl⟩
  | cons a rest ih =>
    intro v
    obtain ⟨hall, hle, hmem⟩ := ih (max v a)
    refine ⟨?_, ?_, ?_⟩
    · intro x hx
      rcases List.mem_cons.mp hx with hx | hx
      · subst hx
        calc x ≤ max v x := le_max_right v x
          _ ≤ List.foldl max (max v x) rest := hle
      · exact hall x hx
    · calc v ≤ max v a := le_max_left v a
        _ ≤ List.foldl max (max v a) rest := hle
    · rcases hmem with h | h
      · rcases max_choice v a with hm | hm
        · exact Or.inl (by rw [List.foldl_cons, h, hm])
        · exact Or.inr (by rw [List.foldl_cons, h, hm]; exact List.mem_cons_self a rest)
      · exact Or.inr (List.mem_cons_of_mem a h)

theorem nextVersion_spec (vs : List Int) (h : vs ≠ []) :
    (∀ x ∈ vs, x + 1 ≤ nextVersion vs) ∧ ∃ m ∈ vs, nextVersion vs = m + 1 := by
  match vs, h with
  | v :: rest, _ =>
    obtain ⟨hall, hle, hmem⟩ := foldl_max_facts rest v
    rw [nextVersion]
    refine ⟨?_, ?_⟩
    · intro x hx
      rcases List.mem_cons.mp hx with hx | hx
      · subst hx; omega
      · have := hall x hx; omega
    · rcases hmem with h | h
      · exact ⟨v, List.mem_cons_self v rest, by rw [h]⟩
      · exact ⟨List.foldl max v rest, List.mem_cons_of_mem v h, rfl⟩

end TriggerModelTraining

namespace JsonWire

theorem natChars_ne_nil (n : Nat) : natChars n ≠ [] := by
  rw [natChars]
  split
  · simp
  · simp

theorem natChars_digits (n : Nat) : ∀ c ∈ natChars n, c.isDigit = true := by
  induction n using Nat.strong_induction_on with
  | _ n ih =>
    rw [natChars]
    split
    · intro c hc
      simp only [List.mem_singleton] at hc
      subst hc
      rename_i h
      interval_cases n <;> decide
    · intro c hc
      rename_i h
      rcases List.mem_append.mp hc with hm | hm
      · exact ih (n / 10) (Nat.div_lt_self (by omega) (by omega)) c hm
      · simp only [List.mem_singleton] at hm
        subst hm
        have h10 : n % 10 < 10 := Nat.mod_lt n (by omega)
        set m := n % 10 with hmdef
        clear_value m
        interval_cases m <;> decide

theorem digitsVal_append_digit (xs : List Char) (d : Char) :
    digitsVal (xs ++ [d]) = 10 * digitsVal xs + (d.toNat - 48) := by
  simp [digitsVal, List.foldl_append]

theorem digitsVal_natChars (n : Nat) : digitsVal (natChars n) = n := by
  induction n using Nat.strong_induction_on with
  | _ n ih =>
    rw [natChars]
    split
    · rename_i h
      simp only [digitsVal, List.foldl_cons, List.foldl_nil]
      have : (Char.ofNat (48 + n)).toNat = 48 + n := by
        interval_cases n <;> decide
      omega
    · rename_i h
      rw [digitsVal_append_digit, ih (n / 10) (Nat.div_lt_self (by omega) (by omega))]
      have h10 : n % 10 < 10 := Nat.mod_lt n (by omega)
      have : (Char.ofNat (48 + n % 10)).toNat = 48 + n % 10 := by
        set m := n % 10 with hmdef
        clear_value m
        interval_cases m <;> decide
      omega

/-- The character after an encoded value never continues a number. -/
def delimOk : List Char → Bool
  | [] => true
  | c :: _ => !c.isDigit

theorem takeWhile_digits_append (ds rest : List Char)
    (hd : ∀ c ∈ ds, c.isDigit = true) (hr : delimOk rest = true) :
    (ds ++ rest).takeWhile Char.isDigit = ds ∧
      (ds ++ rest).dropWhile Char.isDigit = rest := by
  induction ds with
  | nil =>
    simp only [List.nil_append]
    cases rest with
    | nil => simp
    | cons c t =>
      simp only [delimOk, Bool.not_eq_true'] at hr
      simp [List.takeWhile_cons, List.dropWhile_cons, hr]
  | cons d ds ih =>
    have hdd : d.isDigit = true := hd d (by simp)
    obtain ⟨h1, h2⟩ := ih (fun c hc => hd c (by simp [hc]))
    simp [List.takeWhile_cons, List.dropWhile_cons, hdd, h1, h2]

theorem parseNat_natChars (n : Nat) (rest : List Char) (hr : delimOk rest = true) :
    parseNat (natChars n ++ rest) = some (n, rest) := by
  obtain ⟨h1, h2⟩ := takeWhile_digits_append (natChars n) rest (natChars_digits n) hr
  rw [parseNat]
  simp only [h1, h2]
  have hne := natChars_ne_nil n
  simp only [List.isEmpty_iff, hne, if_false, digitsVal_natChars]

end JsonWire
namespace JsonWire

theorem isHexDig_hexDigit : ∀ m, m < 16 → isHexDig (hexDigit m) = true := by decide

theorem hexVal_hexDigit : ∀ m, m < 16 → hexVal (hexDigit m) = m := by decide

theorem hex4_recombine (v : Nat) (hv : v < 65536) :
    hexVal (hexDigit (v / 4096 % 16)) * 4096 + hexVal (hexDigit (v / 256 % 16)) * 256 +
      hexVal (hexDigit (v / 16 % 16)) * 16 + hexVal (hexDigit (v % 16)) = v := by
  rw [hexVal_hexDigit _ (Nat.mod_lt _ (by omega)),
    hexVal_hexDigit _ (Nat.mod_lt _ (by omega)),
    hexVal_hexDigit _ (Nat.mod_lt _ (by omega)),
    hexVal_hexDigit _ (Nat.mod_lt _ (by omega))]
  omega

theorem parseStringBody_escape (cs : List Char) :
    ∀ rest, parseStringBody (escapeChars cs ++ ('"' :: rest)) = some (cs, rest) := by
  induction cs with
  | nil =>
    intro rest
    rw [escapeChars, List.nil_append, parseStringBody.eq_def]
    simp
  | cons c cs ih =>
    intro rest
    rw [escapeChars, List.append_assoc]
    by_cases h1 : c = '"'
    · subst h1
      simp only [escapeChar, if_pos rfl, List.cons_append, List.nil_append]
      rw [parseStringBody.eq_def]
      simp [unescape, ih rest]
    · by_cases h2 : c = '\\'
      · subst h2
        simp only [escapeChar, if_neg (by decide : ¬('\\' = '"')), if_pos rfl,
          List.cons_append, List.nil_append]
        rw [parseStringBody.eq_def]
        simp [unescape, ih rest]
      · by_cases h3 : c.toNat < 32
        · simp only [escapeChar, if_neg h1, if_neg h2, if_pos h3, hex4,
            List.cons_append, List.nil_append]
          have e1 := isHexDig_hexDigit (c.toNat / 4096 % 16) (Nat.mod_lt _ (by omega))
          have e2 := isHexDig_hexDigit (c.toNat / 256 % 16) (Nat.mod_lt _ (by omega))
          have e3 := isHexDig_hexDigit (c.toNat / 16 % 16) (Nat.mod_lt _ (by omega))
          have e4 := isHexDig_hexDigit (c.toNat % 16) (Nat.mod_lt _ (by omega))
          rw [parseStringBody.eq_def]
          simp only [if_neg (by decide : ¬('\\' = '"')), if_pos rfl, e1, e2, e3, e4,
            Bool.and_self, if_true, ih rest, Option.map_some]
          rw [hex4_recombine c.toNat (by omega), Char.ofNat_toNat]
          rfl
        · simp only [escapeChar, if_neg h1, if_neg h2, if_neg h3, List.cons_append,
            List.nil_append]
          rw [parseStringBody.eq_def]
          simp only [if_neg h1, if_neg h2, ih rest, Option.map_some]
          rfl

end JsonWire
namespace JsonWire

theorem isDigit_isWsChar_false (c : Char) (h : c.isDigit = true) : isWsChar c = false := by
  cases hw : isWsChar c with
  | false => rfl
  | true =>
    exfalso
    simp only [isWsChar, Bool.or_eq_true, decide_eq_true_eq] at hw
    rcases hw with ((h1 | h1) | h1) | h1 <;> (subst h1; exact absurd h (by decide))

theorem isDigit_props (c : Char) (h : c.isDigit = true) :
    c ≠ ']' ∧ c ≠ '\x7d' ∧ c ≠ 'n' ∧ c ≠ 't' ∧ c ≠ 'f' ∧ c ≠ '"' ∧ c ≠ '[' ∧
      c ≠ '\x7b' ∧ c ≠ '-' := by
  repeat' apply And.intro
  all_goals (intro e; subst e; exact absurd h (by decide))

theorem natChars_head (n : Nat) :
    ∃ c cs, natChars n = c :: cs ∧ c.isDigit = true := by
  cases hnc : natChars n with
  | nil => exact absurd hnc (natChars_ne_nil n)
  | cons c cs =>
    exact ⟨c, cs, rfl, natChars_digits n c (by rw [hnc]; simp)⟩

theorem dumpVal_head_ok (d : Json) :
    ∃ c cs, dumpVal d = c :: cs ∧ c ≠ ']' ∧ c ≠ '\x7d' ∧ isWsChar c = false := by
  cases d with
  | null => exact ⟨'n', _, by rw [dumpVal], by decide, by decide, by decide⟩
  | bool b =>
    cases b with
    | false => exact ⟨'f', _, by rw [dumpVal], by decide, by decide, by decide⟩
    | true => exact ⟨'t', _, by rw [dumpVal], by decide, by decide, by decide⟩
  | num n =>
    by_cases hn : n < 0
    · exact ⟨'-', _, by rw [dumpVal, intChars, if_pos hn], by decide, by decide, by decide⟩
    · obtain ⟨c, cs, hc, hd⟩ := natChars_head n.toNat
      obtain ⟨g8, g9, _⟩ := isDigit_props c hd
      exact ⟨c, cs, by rw [dumpVal, intChars, if_neg hn, hc], g8, g9,
        isDigit_isWsChar_false c hd⟩
  | str s => exact ⟨'"', _, by rw [dumpVal], by decide, by decide, by decide⟩
  | arr items => exact ⟨'[', _, by rw [dumpVal], by decide, by decide, by decide⟩
  | obj fields => exact ⟨'\x7b', _, by rw [dumpVal], by decide, by decide, by decide⟩

theorem skipWs_not_ws (c : Char) (cs : List Char) (h : isWsChar c = false) :
    skipWs (c :: cs) = c :: cs := by
  simp [skipWs, List.dropWhile_cons, h]

theorem skipWs_space (cs : List Char) : skipWs (' ' :: cs) = skipWs cs := by
  simp [skipWs, List.dropWhile_cons]
  intro h
  exact absurd h (by decide)

theorem dumpItems_head_ok (x : Json) (t : List Json) :
    ∃ c cs, dumpItems (x :: t) = c :: cs ∧ c ≠ ']' ∧ isWsChar c = false := by
  obtain ⟨c, cs, hc, h1, _, h3⟩ := dumpVal_head_ok x
  cases t with
  | nil => exact ⟨c, cs, by rw [dumpItems, hc], h1, h3⟩
  | cons y t =>
    exact ⟨c, cs ++ (',' :: ' ' :: dumpItems (y :: t)), by rw [dumpItems, hc]; rfl, h1, h3⟩

theorem dumpFields_head (p : String × Json) (t : List (String × Json)) :
    ∃ cs, dumpFields (p :: t) = '"' :: cs := by
  cases t with
  | nil => exact ⟨_, by rw [show p = (p.1, p.2) from rfl, dumpFields]⟩
  | cons q t => exact ⟨_, by rw [show p = (p.1, p.2) from rfl, dumpFields]⟩

end JsonWire
namespace JsonWire

theorem parseVal_succ (g : Nat) (c : Char) (rest : List Char) :
    parseVal (g + 1) (c :: rest) =
      (if c = 'n' then
        match rest with
        | 'u' :: 'l' :: 'l' :: r => some (.null, r)
        | _ => none
      else if c = 't' then
        match rest with
        | 'r' :: 'u' :: 'e' :: r => some (.bool true, r)
        | _ => none
      else if c = 'f' then
        match rest with
        | 'a' :: 'l' :: 's' :: 'e' :: r => some (.bool false, r)
        | _ => none
      else if c = '"' then
        (parseStringBody rest).map (fun p => (.str (String.mk p.1), p.2))
      else if c = '[' then
        (parseItems g rest).map (fun p => (.arr p.1, p.2))
      else if c = '\x7b' then
        (parseFields g rest).map (fun p => (.obj p.1, p.2))
      else if c = '-' then
        (parseNat rest).map (fun p => (.num (-(p.1 : Int)), p.2))
      else
        (parseNat (c :: rest)).map (fun p => (.num (p.1 : Int), p.2))) := rfl

theorem parseItems_succ (g : Nat) (cs : List Char) :
    parseItems (g + 1) cs =
      (match cs with
      | ']' :: r => some ([], r)
      | _ =>
        match parseVal g cs with
        | none => none
        | some (v, r) =>
          match r with
          | ',' :: r2 => (parseItems g (skipWs r2)).map (fun p => (v :: p.1, p.2))
          | ']' :: r2 => some ([v], r2)
          | _ => none) := rfl

theorem parseFields_succ (g : Nat) (cs : List Char) :
    parseFields (g + 1) cs =
      (match cs with
      | '\x7d' :: r => some ([], r)
      | '"' :: cs2 =>
        match parseStringBody cs2 with
        | none => none
        | some (kcs, r1) =>
          match r1 with
          | ':' :: r2 =>
            match parseVal g (skipWs r2) with
            | none => none
            | some (v, r3) =>
              match r3 with
              | ',' :: r4 =>
                (parseFields g (skipWs r4)).map (fun p => ((String.mk kcs, v) :: p.1, p.2))
              | '\x7d' :: r4 => some ([(String.mk kcs, v)], r4)
              | _ => none
          | _ => none
      | _ => none) := rfl

theorem jfuel_pos (d : Json) : 1 ≤ jfuel d := by
  cases d <;> simp [jfuel]

theorem jfuelItems_pos (l : List Json) : 1 ≤ jfuelItems l := by
  cases l <;> simp [jfuelItems]

theorem jfuelFields_pos (l : List (String × Json)) : 1 ≤ jfuelFields l := by
  cases l with
  | nil => simp [jfuelFields]
  | cons p t =>
    rw [show p = (p.1, p.2) from rfl, jfuelFields]
    omega

end JsonWire
namespace JsonWire

mutual

theorem parseVal_dump (d : Json) (g : Nat) (hg : jfuel d ≤ g) (rest : List Char)
    (hr : delimOk rest = true) : parseVal g (dumpVal d ++ rest) = some (d, rest) := by
  obtain ⟨g', rfl⟩ : ∃ g', g = g' + 1 := ⟨g - 1, by have := jfuel_pos d; omega⟩
  cases d with
  | null =>
    rw [dumpVal]
    simp only [List.cons_append, List.nil_append]
    rw [parseVal_succ]
    simp
  | bool b =>
    cases b with
    | true =>
      rw [dumpVal]
      simp only [List.cons_append, List.nil_append]
      rw [parseVal_succ]
      simp
    | false =>
      rw [dumpVal]
      simp only [List.cons_append, List.nil_append]
      rw [parseVal_succ]
      simp
  | num n =>
    rw [dumpVal, intChars]
    by_cases hn : n < 0
    · rw [if_pos hn]
      simp only [List.cons_append]
      rw [parseVal_succ]
      simp only [if_neg (by decide : ¬('-' = 'n')), if_neg (by decide : ¬('-' = 't')),
        if_neg (by decide : ¬('-' = 'f')), if_neg (by decide : ¬('-' = '"')),
        if_neg (by decide : ¬('-' = '[')), if_neg (by decide : ¬('-' = '\x7b')),
        if_pos rfl, parseNat_natChars _ rest hr]
      have h2 : (((-n).toNat : Int)) = -n := Int.toNat_of_nonneg (by omega)
      simp [h2]
    · rw [if_neg hn]
      obtain ⟨c, cs, hc, hd⟩ := natChars_head n.toNat
      obtain ⟨_, _, e1, e2, e3, e4, e5, e6, e7⟩ := isDigit_props c hd
      rw [hc]
      simp only [List.cons_append]
      rw [parseVal_succ]
      rw [if_neg e1, if_neg e2, if_neg e3, if_neg e4, if_neg e5, if_neg e6, if_neg e7]
      have : (c :: (cs ++ rest)) = natChars n.toNat ++ rest := by rw [hc]; simp
      rw [this, parseNat_natChars _ rest hr]
      have h2 : ((n.toNat : Int)) = n := Int.toNat_of_nonneg (by omega)
      simp [h2]
  | str s =>
    rw [dumpVal]
    simp only [List.cons_append, List.append_assoc, List.nil_append]
    rw [parseVal_succ]
    simp only [if_neg (by decide : ¬('"' = 'n')), if_neg (by decide : ¬('"' = 't')),
      if_neg (by decide : ¬('"' = 'f')), if_pos rfl,
      parseStringBody_escape s.toList rest]
    rfl
  | arr items =>
    rw [dumpVal]
    simp only [List.cons_append, List.append_assoc, List.nil_append]
    rw [parseVal_succ]
    simp only [if_neg (by decide : ¬('[' = 'n')), if_neg (by decide : ¬('[' = 't')),
      if_neg (by decide : ¬('[' = 'f')), if_neg (by decide : ¬('[' = '"')), if_pos rfl]
    rw [parseItems_dump items g' (by rw [jfuel] at hg; omega) rest]
    rfl
  | obj fields =>
    rw [dumpVal]
    simp only [List.cons_append, List.append_assoc, List.nil_append]
    rw [parseVal_succ]
    simp only [if_neg (by decide : ¬('\x7b' = 'n')), if_neg (by decide : ¬('\x7b' = 't')),
      if_neg (by decide : ¬('\x7b' = 'f')), if_neg (by decide : ¬('\x7b' = '"')),
      if_neg (by decide : ¬('\x7b' = '[')), if_pos rfl]
    rw [parseFields_dump fields g' (by rw [jfuel] at hg; omega) rest]
    rfl

theorem parseItems_dump (l : List Json) (g : Nat) (hg : jfuelItems l ≤ g)
    (rest : List Char) : parseItems g (dumpItems l ++ (']' :: rest)) = some (l, rest) := by
  obtain ⟨g', rfl⟩ : ∃ g', g = g' + 1 := ⟨g - 1, by have := jfuelItems_pos l; omega⟩
  cases l with
  | nil =>
    rw [dumpItems, List.nil_append]
    exact rfl
  | cons x t =>
    cases t with
    | nil =>
      rw [dumpItems]
      have hfx : jfuel x ≤ g' := by
        rw [jfuelItems, jfuelItems] at hg
        exact (Nat.max_le.mp (by omega : max (jfuel x) 1 ≤ g')).1
      obtain ⟨c, cs, hc, hne, _⟩ := dumpVal_head_ok x
      rw [parseItems_succ, hc]
      simp only [List.cons_append]
      split
      · rename_i heq
        injection heq with h1 _
        exact absurd h1 hne
      · have hv : parseVal g' (c :: (cs ++ (']' :: rest))) = some (x, ']' :: rest) := by
          have h3 : (c :: (cs ++ (']' :: rest))) = dumpVal x ++ (']' :: rest) := by
            rw [hc]; simp
          rw [h3]
          exact parseVal_dump x g' hfx (']' :: rest) rfl
        simp only [hv]
    | cons y t' =>
      rw [dumpItems]
      have hmax : max (jfuel x) (jfuelItems (y :: t')) ≤ g' := by
        rw [jfuelItems] at hg; omega
      have hfx : jfuel x ≤ g' := (Nat.max_le.mp hmax).1
      have hft : jfuelItems (y :: t') ≤ g' := (Nat.max_le.mp hmax).2
      obtain ⟨c, cs, hc, hne, _⟩ := dumpVal_head_ok x
      rw [parseItems_succ, hc]
      simp only [List.cons_append, List.append_assoc]
      split
      · rename_i heq
        injection heq with h1 _
        exact absurd h1 hne
      · have hv : parseVal g'
            (c :: (cs ++ (',' :: ' ' :: (dumpItems (y :: t') ++ (']' :: rest))))) =
            some (x, ',' :: ' ' :: (dumpItems (y :: t') ++ (']' :: rest))) := by
          have h3 : (c :: (cs ++ (',' :: ' ' :: (dumpItems (y :: t') ++ (']' :: rest))))) =
              dumpVal x ++ (',' :: ' ' :: (dumpItems (y :: t') ++ (']' :: rest))) := by
            rw [hc]; simp
          rw [h3]
          exact parseVal_dump x g' hfx _ rfl
        obtain ⟨c2, cs2, hc2, _, hw2⟩ := dumpItems_head_ok y t'
        have hskip : skipWs (' ' :: (dumpItems (y :: t') ++ (']' :: rest))) =
            dumpItems (y :: t') ++ (']' :: rest) := by
          rw [skipWs_space, hc2, List.cons_append, skipWs_not_ws c2 _ hw2]
        simp only [hv, hskip, parseItems_dump (y :: t') g' hft rest, Option.map_some']

theorem parseFields_dump (l : List (String × Json)) (g : Nat) (hg : jfuelFields l ≤ g)
    (rest : List Char) :
    parseFields g (dumpFields l ++ ('\x7d' :: rest)) = some (l, rest) := by
  obtain ⟨g', rfl⟩ : ∃ g', g = g' + 1 := ⟨g - 1, by have := jfuelFields_pos l; omega⟩
  cases l with
  | nil =>
    rw [dumpFields, List.nil_append]
    exact rfl
  | cons p t =>
    obtain ⟨k, v⟩ := p
    cases t with
    | nil =>
      rw [dumpFields]
      have hfv : jfuel v ≤ g' := by
        rw [jfuelFields, jfuelFields] at hg
        exact (Nat.max_le.mp (by omega : max (jfuel v) 1 ≤ g')).1
      rw [parseFields_succ]
      simp only [List.cons_append, List.append_assoc, List.nil_append]
      obtain ⟨c2, cs2, hc2, _, _, hw2⟩ := dumpVal_head_ok v
      have hskip : skipWs (' ' :: (dumpVal v ++ ('\x7d' :: rest))) =
          dumpVal v ++ ('\x7d' :: rest) := by
        rw [skipWs_space, hc2, List.cons_append, skipWs_not_ws c2 _ hw2]
      simp only [parseStringBody_escape k.toList, hskip,
        parseVal_dump v g' hfv ('\x7d' :: rest) rfl]
      rfl
    | cons q t' =>
      rw [dumpFields]
      have hmax : max (jfuel v) (jfuelFields (q :: t')) ≤ g' := by
        rw [jfuelFields] at hg; omega
      have hfv : jfuel v ≤ g' := (Nat.max_le.mp hmax).1
      have hft : jfuelFields (q :: t') ≤ g' := (Nat.max_le.mp hmax).2
      rw [parseFields_succ]
      simp only [List.cons_append, List.append_assoc, List.nil_append]
      obtain ⟨c2, cs2, hc2, _, _, hw2⟩ := dumpVal_head_ok v
      have hskip : skipWs (' ' :: (dumpVal v ++
          (',' :: ' ' :: (dumpFields (q :: t') ++ ('\x7d' :: rest))))) =
          dumpVal v ++ (',' :: ' ' :: (dumpFields (q :: t') ++ ('\x7d' :: rest))) := by
        rw [skipWs_space, hc2, List.cons_append, skipWs_not_ws c2 _ hw2]
      obtain ⟨cs3, hc3⟩ := dumpFields_head q t'
      have hskip2 : skipWs (' ' :: (dumpFields (q :: t') ++ ('\x7d' :: rest))) =
          dumpFields (q :: t') ++ ('\x7d' :: rest) := by
        rw [skipWs_space, hc3, List.cons_append, skipWs_not_ws '"' _ (by decide)]
      simp only [parseStringBody_escape k.toList, hskip, hskip2,
        parseVal_dump v g' hfv
          (',' :: ' ' :: (dumpFields (q :: t') ++ ('\x7d' :: rest))) rfl,
        parseFields_dump (q :: t') g' hft rest, Option.map_some']
      rfl

end

end JsonWire
namespace JsonWire

theorem dumpVal_length_pos (d : Json) : 1 ≤ (dumpVal d).length := by
  obtain ⟨c, cs, hc, _⟩ := dumpVal_head_ok d
  rw [hc]
  simp

mutual

theorem jfuel_le_dump (d : Json) : jfuel d ≤ (dumpVal d).length := by
  cases d with
  | null => rw [dumpVal]; simp [jfuel]
  | bool b => cases b <;> (rw [dumpVal]; simp [jfuel])
  | num n =>
    have h1 : jfuel (.num n) = 1 := rfl
    rw [h1]; exact dumpVal_length_pos (.num n)
  | str s =>
    have h1 : jfuel (.str s) = 1 := rfl
    rw [h1]; exact dumpVal_length_pos (.str s)
  | arr items =>
    rw [dumpVal, jfuel]
    have := jfuelItems_le_dump items
    simp only [List.length_cons, List.length_append, List.length_singleton]
    omega
  | obj fields =>
    rw [dumpVal, jfuel]
    have := jfuelFields_le_dump fields
    simp only [List.length_cons, List.length_append, List.length_singleton]
    omega

theorem jfuelItems_le_dump (l : List Json) : jfuelItems l ≤ (dumpItems l).length + 1 := by
  cases l with
  | nil => rw [dumpItems, jfuelItems]; simp
  | cons x t =>
    cases t with
    | nil =>
      rw [dumpItems, jfuelItems, jfuelItems]
      have h1 := jfuel_le_dump x
      have h2 := dumpVal_length_pos x
      have : max (jfuel x) 1 ≤ (dumpVal x).length := Nat.max_le.mpr ⟨h1, h2⟩
      omega
    | cons y t' =>
      rw [dumpItems, jfuelItems]
      have h1 := jfuel_le_dump x
      have h2 := jfuelItems_le_dump (y :: t')
      have hmax : max (jfuel x) (jfuelItems (y :: t')) ≤
          (dumpVal x).length + (dumpItems (y :: t')).length + 1 :=
        Nat.max_le.mpr ⟨by omega, by omega⟩
      simp only [List.length_append, List.length_cons]
      omega

theorem jfuelFields_le_dump (l : List (String × Json)) :
    jfuelFields l ≤ (dumpFields l).length + 1 := by
  cases l with
  | nil => rw [dumpFields, jfuelFields]; simp
  | cons p t =>
    obtain ⟨k, v⟩ := p
    cases t with
    | nil =>
      rw [dumpFields, jfuelFields, jfuelFields]
      have h1 := jfuel_le_dump v
      have h2 := dumpVal_length_pos v
      have : max (jfuel v) 1 ≤ (dumpVal v).length := Nat.max_le.mpr ⟨h1, h2⟩
      simp only [List.length_cons, List.length_append]
      omega
    | cons q t' =>
      rw [dumpFields, jfuelFields]
      have h1 := jfuel_le_dump v
      have h2 := jfuelFields_le_dump (q :: t')
      have hmax : max (jfuel v) (jfuelFields (q :: t')) ≤
          (dumpVal v).length + (dumpFields (q :: t')).length + 1 :=
        Nat.max_le.mpr ⟨by omega, by omega⟩
      simp only [List.length_cons, List.length_append]
      omega

end

theorem jsonLoads_jsonDumps (d : Json) : jsonLoads (jsonDumps d) = some d := by
  have hlist : (jsonDumps d).toList = dumpVal d := rfl
  have hlen : (jsonDumps d).length = (dumpVal d).length := rfl
  obtain ⟨c, cs, hc, _, _, hw⟩ := dumpVal_head_ok d
  have hskip : skipWs (jsonDumps d).toList = dumpVal d := by
    rw [hlist, hc, skipWs_not_ws c _ hw]
  have hp : parseVal ((jsonDumps d).length + 1) (dumpVal d) = some (d, []) := by
    have h := parseVal_dump d ((dumpVal d).length + 1)
      (le_trans (jfuel_le_dump d) (by omega)) [] rfl
    rw [List.append_nil] at h
    rw [hlen]
    exact h
  rw [jsonLoads]
  simp only [hskip, hp]
  rfl

end JsonWire

/-! ## Claim theorems -/

/-- Claim C1 (amended): when the primary config key is absent and both
fallback documents load, and the base document already carries a
`modelParameters` mapping with a `training` mapping, the document returned
by the load-and-merge phase of the sync handler replaces that `training`
mapping by its update with the training document's `Training` section, and
every key of the `Training` section appears in the merged section with the
`Training` section's value (training values take precedence on conflict).
As stated originally the claim is false: without a pre-existing
`modelParameters.training` section no merge happens (see the
counterexample). -/
theorem claim_C1_fallback_merge (store : S3Store) (bucket key emsg : String)
    (training_config : Json) (fs mfs bt ts : List (String × Json))
    (hprimary : store bucket key = .err ("NoSuchKey") emsg)
    (hbase : store bucket ("configs/model-config.json") = .ok (Json.obj fs))
    (htrain : store bucket ("configs/model-training-config.json") = .ok training_config)
    (hmp : Json.lookupField fs ("modelParameters") = some (Json.obj mfs))
    (htr : Json.lookupField mfs ("training") = some (Json.obj bt))
    (hts : Json.pyGet training_config ("Training") (Json.obj []) = .ok (Json.obj ts)) :
    SyncS3ToAppConfig.loadConfig store bucket key =
      .ok (Json.obj (Json.setField fs ("modelParameters")
        (Json.obj (Json.setField mfs ("training") (Json.obj (Json.pyUpdate bt ts)))))) ∧
    Json.lookupField (Json.setField fs ("modelParameters")
        (Json.obj (Json.setField mfs ("training") (Json.obj (Json.pyUpdate bt ts)))))
        ("modelParameters") =
      some (Json.obj (Json.setField mfs ("training") (Json.obj (Json.pyUpdate bt ts)))) ∧
    Json.lookupField (Json.setField mfs ("training") (Json.obj (Json.pyUpdate bt ts)))
        ("training") = some (Json.obj (Json.pyUpdate bt ts)) ∧
    (∀ k v, Json.lookupField ts k = some v →
      Json.lookupField (Json.pyUpdate bt ts) k = some v) := by
  refine ⟨?_, ?_, ?_, ?_⟩
  · rw [SyncS3ToAppConfig.loadConfig, hprimary]
    simp only [if_pos rfl, hbase, htrain]
    rw [SyncS3ToAppConfig.mergeConfigs]
    simp only [hmp, htr, hts]
    rfl
  · exact Json.lookupField_setField_self fs _ _ _ hmp
  · exact Json.lookupField_setField_self mfs _ _ _ htr
  · intro k v hv
    exact Json.lookupField_pyUpdate_left bt ts k v hv

/-- Claim C1, counterexample to the original statement: with a base document
`{}` and a training document whose `Training` section holds the key `x`, the
merged document returned by the load phase is `{}`, which has no
`modelParameters` entry at all, so its `modelParameters.training` section
does not contain every key of the `Training` section. -/
theorem claim_C1_counterexample :
    SyncS3ToAppConfig.loadConfig
      (fun _ k =>
        if k = "configs/model-config.json" then .ok (Json.obj [])
        else if k = "configs/model-training-config.json" then
          .ok (Json.obj [("Training", Json.obj [("x", Json.num 1)])])
        else .err ("NoSuchKey") ("An error occurred (NoSuchKey)"))
      ("bkt") ("configs/primary.json") = .ok (Json.obj []) ∧
    Json.lookupField ([] : List (String × Json)) ("modelParameters") = none ∧
    Json.lookupField [("x", Json.num 1)] ("x") = some (Json.num 1) :=
  ⟨rfl, rfl, rfl⟩

/-- Claim C1, witness: the amended theorem applied to concrete documents;
the training value for `lr` wins, the base-only key `keep` survives, and the
training-only key `extra` is appended. -/
theorem claim_C1_witness :
    SyncS3ToAppConfig.loadConfig
      (fun _ k =>
        if k = "configs/model-config.json" then
          .ok (Json.obj [("modelParameters", Json.obj [("training",
            Json.obj [("lr", Json.num 1), ("keep", Json.num 9)])])])
        else if k = "configs/model-training-config.json" then
          .ok (Json.obj [("Training", Json.obj [("lr", Json.num 2), ("extra", Json.num 3)])])
        else .err ("NoSuchKey") ("An error occurred (NoSuchKey)"))
      ("bkt") ("configs/primary.json") =
      .ok (Json.obj (Json.setField
        [("modelParameters", Json.obj [("training",
          Json.obj [("lr", Json.num 1), ("keep", Json.num 9)])])]
        ("modelParameters")
        (Json.obj (Json.setField [("training",
          Json.obj [("lr", Json.num 1), ("keep", Json.num 9)])] ("training")
          (Json.obj (Json.pyUpdate [("lr", Json.num 1), ("keep", Json.num 9)]
            [("lr", Json.num 2), ("extra", Json.num 3)])))))) ∧
    (∀ k v, Json.lookupField [("lr", Json.num 2), ("extra", Json.num 3)] k = some v →
      Json.lookupField (Json.pyUpdate [("lr", Json.num 1), ("keep", Json.num 9)]
        [("lr", Json.num 2), ("extra", Json.num 3)]) k = some v) ∧
    Json.pyUpdate [("lr", Json.num 1), ("keep", Json.num 9)]
        [("lr", Json.num 2), ("extra", Json.num 3)] =
      [("lr", Json.num 2), ("keep", Json.num 9), ("extra", Json.num 3)] := by
  have h := claim_C1_fallback_merge
    (fun _ k =>
      if k = "configs/model-config.json" then
        .ok (Json.obj [("modelParameters", Json.obj [("training",
          Json.obj [("lr", Json.num 1), ("keep", Json.num 9)])])])
      else if k = "configs/model-training-config.json" then
        .ok (Json.obj [("Training", Json.obj [("lr", Json.num 2), ("extra", Json.num 3)])])
      else .err ("NoSuchKey") ("An error occurred (NoSuchKey)"))
    ("bkt") ("configs/primary.json") ("An error occurred (NoSuchKey)")
    (Json.obj [("Training", Json.obj [("lr", Json.num 2), ("extra", Json.num 3)])])
    [("modelParameters", Json.obj [("training",
      Json.obj [("lr", Json.num 1), ("keep", Json.num 9)])])]
    [("training", Json.obj [("lr", Json.num 1), ("keep", Json.num 9)])]
    [("lr", Json.num 1), ("keep", Json.num 9)]
    [("lr", Json.num 2), ("extra", Json.num 3)]
    rfl rfl rfl rfl rfl rfl
  exact ⟨h.1, h.2.2.2, rfl⟩

/-- Claim C2: in the deployment-watch loop, if the first terminal state is
observed at poll index `k` (within the wall-clock window), then exactly
`k + 1` status calls are made — the status API is never called again after a
terminal state; a `COMPLETE` observation makes the handler stop polling and
return the 200 success response, and a `FAILED` or `ROLLED_BACK` observation
makes it immediately return a 500 response naming that status. -/
theorem claim_C2_watch_terminal (env : SyncS3ToAppConfig.SyncEnv)
    (event : SyncS3ToAppConfig.SyncEvent) (store : S3Store)
    (svc : SyncS3ToAppConfig.AppConfigService) (fs : List (String × Json)) (k : Nat)
    (h1 : truthyOpt env.application_id = true)
    (h2 : truthyOpt env.environment_id = true)
    (h3 : truthyOpt env.configuration_profile_id = true)
    (h4 : truthyOpt env.deployment_strategy_id = true)
    (h5 : truthyOpt (event.bucket <|> env.config_bucket) = true)
    (hload : SyncS3ToAppConfig.loadConfig store
      ((event.bucket <|> env.config_bucket).getD (""))
      ((event.key).getD ("configs/model-config.json")) = .ok (Json.obj fs))
    (hwait : (event.wait_for_deployment).getD true = true)
    (hk : SyncS3ToAppConfig.sleepInterval * k < SyncS3ToAppConfig.maxWaitTime)
    (hfirst : ∀ j, j < k →
      SyncS3ToAppConfig.isTerminalState (svc.deploymentState j) = false)
    (hterm : SyncS3ToAppConfig.isTerminalState (svc.deploymentState k) = true) :
    SyncS3ToAppConfig.pollCalls
      (SyncS3ToAppConfig.pollLoop svc.deploymentState 0 0) = k + 1 ∧
    (svc.deploymentState k = "COMPLETE" →
      SyncS3ToAppConfig.handler env event store svc =
        ⟨200, .success svc.versionNumber svc.deploymentNumber (Json.keysOf fs)⟩) ∧
    ((svc.deploymentState k = "FAILED" ∨ svc.deploymentState k = "ROLLED_BACK") →
      SyncS3ToAppConfig.handler env event store svc =
        ⟨500, .msg ("Deployment failed with status: " ++ svc.deploymentState k)⟩) := by
  have hpoll := SyncS3ToAppConfig.pollLoop_firstTerminal svc.deploymentState k hk hfirst
    hterm k 0 0 (by simp) (by omega) (by omega)
  refine ⟨?_, ?_, ?_⟩
  · rw [hpoll]; split <;> rfl
  · intro hc
    unfold SyncS3ToAppConfig.handler SyncS3ToAppConfig.handlerBody
    simp only [h1, h2, h3, h4, h5, Bool.and_self, if_true, hload, hwait, hpoll, hc,
      Json.pyKeys]
    rfl
  · intro hf
    have hc : ¬ svc.deploymentState k = "COMPLETE" := by
      rcases hf with hf | hf <;> rw [hf] <;> decide
    unfold SyncS3ToAppConfig.handler SyncS3ToAppConfig.handlerBody
    simp only [h1, h2, h3, h4, h5, Bool.and_self, if_true, hload, hwait, hpoll,
      if_neg hc]

/-- Claim C2, witness: a deployment whose very first poll reports `FAILED`
yields the 500 failure response after exactly one status call. -/
theorem claim_C2_witness :
    SyncS3ToAppConfig.handler
      ⟨some ("app"), some ("env"), some ("prof"), some ("strat"), some ("bkt")⟩
      ⟨some ("b"), none, some true⟩ (fun _ _ => .ok (Json.obj [("k", Json.num 1)]))
      ⟨7, 3, fun _ => "FAILED"⟩ =
      ⟨500, .msg ("Deployment failed with status: FAILED")⟩ ∧
    SyncS3ToAppConfig.pollCalls
      (SyncS3ToAppConfig.pollLoop (fun _ => "FAILED") 0 0) = 1 := by
  have h := claim_C2_watch_terminal
    ⟨some ("app"), some ("env"), some ("prof"), some ("strat"), some ("bkt")⟩
    ⟨some ("b"), none, some true⟩ (fun _ _ => .ok (Json.obj [("k", Json.num 1)]))
    ⟨7, 3, fun _ => "FAILED"⟩ [("k", Json.num 1)] 0
    (by decide) (by decide) (by decide) (by decide) (by decide) rfl rfl (by decide)
    (fun j hj => absurd hj (by omega)) (by decide)
  exact ⟨h.2.2 (Or.inl rfl), h.1⟩

/-- Claim C3: the deployment-watch loop polls on a fixed 10-second interval
under a 300-second wall-clock ceiling, so for every sequence of service
states it makes at most ceiling/interval = 30 status calls. -/
theorem claim_C3_poll_bound :
    SyncS3ToAppConfig.maxWaitTime = 300 ∧ SyncS3ToAppConfig.sleepInterval = 10 ∧
    SyncS3ToAppConfig.maxWaitTime / SyncS3ToAppConfig.sleepInterval = 30 ∧
    ∀ f : Nat → String,
      SyncS3ToAppConfig.pollCalls (SyncS3ToAppConfig.pollLoop f 0 0) ≤ 30 := by
  refine ⟨rfl, rfl, rfl, fun f => ?_⟩
  exact SyncS3ToAppConfig.pollLoop_calls_le f SyncS3ToAppConfig.maxWaitTime 0 0
    (by simp) (by omega) (by omega)

/-- Claim C4: when every state observed within the polling window is
non-terminal, the loop exits by timeout after 30 calls with no distinct
timeout error, and the handler returns the normal 200 success response with
the version number, deployment number and config keys. -/
theorem claim_C4_timeout_success (env : SyncS3ToAppConfig.SyncEnv)
    (event : SyncS3ToAppConfig.SyncEvent) (store : S3Store)
    (svc : SyncS3ToAppConfig.AppConfigService) (fs : List (String × Json))
    (h1 : truthyOpt env.application_id = true)
    (h2 : truthyOpt env.environment_id = true)
    (h3 : truthyOpt env.configuration_profile_id = true)
    (h4 : truthyOpt env.deployment_strategy_id = true)
    (h5 : truthyOpt (event.bucket <|> env.config_bucket) = true)
    (hload : SyncS3ToAppConfig.loadConfig store
      ((event.bucket <|> env.config_bucket).getD (""))
      ((event.key).getD ("configs/model-config.json")) = .ok (Json.obj fs))
    (hwait : (event.wait_for_deployment).getD true = true)
    (hnt : ∀ j, SyncS3ToAppConfig.sleepInterval * j < SyncS3ToAppConfig.maxWaitTime →
      SyncS3ToAppConfig.isTerminalState (svc.deploymentState j) = false) :
    SyncS3ToAppConfig.pollLoop svc.deploymentState 0 0 =
      .timedOut (SyncS3ToAppConfig.maxWaitTime / SyncS3ToAppConfig.sleepInterval) ∧
    SyncS3ToAppConfig.handler env event store svc =
      ⟨200, .success svc.versionNumber svc.deploymentNumber (Json.keysOf fs)⟩ := by
  have hpoll := SyncS3ToAppConfig.pollLoop_timedOut svc.deploymentState hnt
    SyncS3ToAppConfig.maxWaitTime 0 0 (by simp) (by omega) (by omega)
  refine ⟨hpoll, ?_⟩
  unfold SyncS3ToAppConfig.handler SyncS3ToAppConfig.handlerBody
  simp only [h1, h2, h3, h4, h5, Bool.and_self, if_true, hload, hwait, hpoll,
    Json.pyKeys]
  rfl

/-- Claim C4, witness: a deployment that reports `IN_PROGRESS` forever times
out and the caller still receives the 200 success response. -/
theorem claim_C4_witness :
    SyncS3ToAppConfig.handler
      ⟨some ("app"), some ("env"), some ("prof"), some ("strat"), some ("bkt")⟩
      ⟨some ("b"), none, some true⟩ (fun _ _ => .ok (Json.obj [("k", Json.num 1)]))
      ⟨7, 3, fun _ => "IN_PROGRESS"⟩ = ⟨200, .success 7 3 ["k"]⟩ ∧
    SyncS3ToAppConfig.pollLoop (fun _ => "IN_PROGRESS") 0 0 = .timedOut 30 := by
  have h := claim_C4_timeout_success
    ⟨some ("app"), some ("env"), some ("prof"), some ("strat"), some ("bkt")⟩
    ⟨some ("b"), none, some true⟩ (fun _ _ => .ok (Json.obj [("k", Json.num 1)]))
    ⟨7, 3, fun _ => "IN_PROGRESS"⟩ [("k", Json.num 1)]
    (by decide) (by decide) (by decide) (by decide) (by decide) rfl rfl
    (fun j _ => rfl)
  exact ⟨h.2, h.1⟩

/-- Claim C5: parameter key `a.b.c` against `{"a": {"b": {"c": 42}}}`
returns the value 42 with status 200; against `{"a": {"b": {}}}` it returns
a 404 whose body names the full key `a.b.c`; and in general a dotted key is
split on `.` and, whenever the walk reaches an object in which the next
segment is absent, the handler returns a 404 naming the full requested key.
-/
theorem claim_C5_parameter_lookup :
    (ParameterFetcher.handler ⟨some ("a"), some ("e"), some ("p"), some ("a.b.c")⟩
        (fun _ => none)
        (Json.obj [("a", Json.obj [("b", Json.obj [("c", Json.num 42)])])]) =
      ⟨200, .param (Json.num 42)⟩) ∧
    (ParameterFetcher.handler ⟨some ("a"), some ("e"), some ("p"), some ("a.b.c")⟩
        (fun _ => none)
        (Json.obj [("a", Json.obj [("b", Json.obj [])])]) =
      ⟨404, .msg ("Parameter a.b.c not found in configuration")⟩) ∧
    (∀ (event : ParameterFetcher.FetchEvent) (env : String → Option String)
        (doc : Json) (pk : String) (pre : List String) (k : String)
        (rest : List String) (gs : List (String × Json)),
      truthyOpt (event.ApplicationId <|> env ("APPLICATION_ID")) = true →
      truthyOpt (event.EnvironmentId <|> env ("ENVIRONMENT_ID")) = true →
      truthyOpt (event.ConfigurationProfileId <|> env ("CONFIGURATION_PROFILE_ID")) = true →
      event.ParameterKey = some pk → pk ≠ "" → strHasChar pk '.' = true →
      pySplitChar pk '.' = pre ++ k :: rest →
      ParameterFetcher.walkPath doc pre = some (Json.obj gs) →
      Json.lookupField gs k = none →
      ParameterFetcher.handler event env doc =
        ⟨404, .msg ("Parameter " ++ pk ++ " not found in configuration")⟩) := by
  refine ⟨by decide, by decide, ?_⟩
  intro event env doc pk pre k rest gs h1 h2 h3 hpk hne hdot hsplit hwalk habs
  have htrav := ParameterFetcher.traverse_absent pre doc gs k rest hwalk habs
  unfold ParameterFetcher.handler ParameterFetcher.handlerBody
  simp only [h1, h2, h3, Bool.and_self, if_true, hpk]
  have hty : truthyOpt (some pk) = true := by simp [truthyOpt, hne]
  simp only [hty, if_true, Option.getD_some, hdot, hsplit, htrav]

/-- Claim C5, witness: the general 404 clause applied to the key `x.y`
against `{"x": {}}`. -/
theorem claim_C5_witness :
    ParameterFetcher.handler ⟨some ("a"), some ("e"), some ("p"), some ("x.y")⟩
      (fun _ => none) (Json.obj [("x", Json.obj [])]) =
      ⟨404, .msg ("Parameter x.y not found in configuration")⟩ :=
  claim_C5_parameter_lookup.2.2 ⟨some ("a"), some ("e"), some ("p"), some ("x.y")⟩
    (fun _ => none) (Json.obj [("x", Json.obj [])]) ("x.y") (["x"]) ("y") ([]) ([])
    (by decide) (by decide) (by decide) rfl (by decide) (by decide) (by decide) rfl rfl

/-- Claim C10: against the document `{"a": 42}` the dotted key `a.b` does
not produce a 404: the membership test on the number 42 raises `TypeError`,
which the top-level handler converts into a 500 response carrying the
stringified error. -/
theorem claim_C10_non_mapping_traversal :
    ParameterFetcher.handlerBody ⟨some ("a"), some ("e"), some ("p"), some ("a.b")⟩
        (fun _ => none) (Json.obj [("a", Json.num 42)]) =
      .error (.typeError ("argument of type \x27int\x27 is not iterable")) ∧
    ParameterFetcher.handler ⟨some ("a"), some ("e"), some ("p"), some ("a.b")⟩
        (fun _ => none) (Json.obj [("a", Json.num 42)]) =
      ⟨500, .msg ("argument of type \x27int\x27 is not iterable")⟩ ∧
    (ParameterFetcher.handler ⟨some ("a"), some ("e"), some ("p"), some ("a.b")⟩
        (fun _ => none) (Json.obj [("a", Json.num 42)])).statusCode ≠ 404 := by
  refine ⟨rfl, by decide, by decide⟩

/-- Claim C6 (amended): validation failures are reported before any
external call — the result is independent of the store and the services —
but the three entry points differ from the original claim.  The sync
handler returns a 400 listing exactly the names whose resolved values are
falsy.  The parameter fetcher returns a 400, but its list is computed
against upper-cased environment names (`APPLICATIONID`) rather than the
underscored names used as actual fallbacks, so it can name parameters that
were in fact supplied (see the counterexample).  The training trigger does
not return a 400 at all: it raises `ValueError`. -/
theorem claim_C6_validation :
    (∀ (env : SyncS3ToAppConfig.SyncEnv) (event : SyncS3ToAppConfig.SyncEvent),
      SyncS3ToAppConfig.syncMissing env (event.bucket <|> env.config_bucket) ≠ [] →
      ∀ (store : S3Store) (svc : SyncS3ToAppConfig.AppConfigService),
        SyncS3ToAppConfig.handler env event store svc =
          ⟨400, .msg ("Missing required parameters: " ++ String.intercalate (", ")
            (SyncS3ToAppConfig.syncMissing env (event.bucket <|> env.config_bucket)))⟩) ∧
    (∀ (event : ParameterFetcher.FetchEvent) (env : String → Option String),
      (truthyOpt (event.ApplicationId <|> env ("APPLICATION_ID")) &&
        truthyOpt (event.EnvironmentId <|> env ("ENVIRONMENT_ID")) &&
        truthyOpt (event.ConfigurationProfileId <|> env ("CONFIGURATION_PROFILE_ID"))) =
          false →
      ∀ doc : Json,
        ParameterFetcher.handler event env doc =
          ⟨400, .msg ("Missing required parameters: " ++ String.intercalate (", ")
            (ParameterFetcher.fetchMissing event env))⟩) ∧
    (∀ (event : TriggerModelTraining.TriggerEvent) (env : String → Option String),
      truthyOpt (event.bucket_name <|> env ("CONFIG_BUCKET_NAME")) = false →
      ∀ (store : S3Store) (listObjs : String → String → List String)
        (sagemaker : String → String),
        TriggerModelTraining.handler event env store listObjs sagemaker =
          .error (.valueError
            ("Bucket name must be provided in event or as environment variable"))) := by
  refine ⟨?_, ?_, ?_⟩
  · intro env event hmiss store svc
    have hcond : (truthyOpt env.application_id && truthyOpt env.environment_id &&
        truthyOpt env.configuration_profile_id && truthyOpt env.deployment_strategy_id &&
        truthyOpt (event.bucket <|> env.config_bucket)) = false := by
      cases hc : (truthyOpt env.application_id && truthyOpt env.environment_id &&
        truthyOpt env.configuration_profile_id && truthyOpt env.deployment_strategy_id &&
        truthyOpt (event.bucket <|> env.config_bucket)) with
      | false => rfl
      | true =>
        exact absurd ((SyncS3ToAppConfig.syncMissing_nil_iff env _).mpr hc) hmiss
    unfold SyncS3ToAppConfig.handler SyncS3ToAppConfig.handlerBody
    simp only [hcond, Bool.false_eq_true, if_false]
  · intro event env hcond doc
    unfold ParameterFetcher.handler ParameterFetcher.handlerBody
    simp only [hcond, Bool.false_eq_true, if_false]
  · intro event env hcond store listObjs sagemaker
    unfold TriggerModelTraining.handler
    simp only [hcond, Bool.false_eq_true, if_false]

/-- Claim C6, counterexample to the original statement: the fetcher event
supplies `ConfigurationProfileId`, the environment supplies
`APPLICATION_ID` (so `ApplicationId` resolves and is not missing), and only
`EnvironmentId` is missing — yet the 400 body lists both `ApplicationId`
and `EnvironmentId`, so the response does not list exactly the missing
names. -/
theorem claim_C6_counterexample :
    ParameterFetcher.handler ⟨none, none, some ("prof"), none⟩
        (fun k => if k = "APPLICATION_ID" then some ("app") else none) (Json.obj []) =
      ⟨400, .msg ("Missing required parameters: ApplicationId, EnvironmentId")⟩ ∧
    ParameterFetcher.fetchMissing ⟨none, none, some ("prof"), none⟩
        (fun k => if k = "APPLICATION_ID" then some ("app") else none) =
      ["ApplicationId", "EnvironmentId"] ∧
    truthyOpt ((⟨none, none, some ("prof"), none⟩ :
        ParameterFetcher.FetchEvent).ApplicationId
      <|> (fun k => if k = "APPLICATION_ID" then some ("app") else none)
        ("APPLICATION_ID")) = true := by
  refine ⟨by decide, by decide, by decide⟩

/-- Claim C6, witness: the amended theorem applied to a sync invocation
missing `APPLICATION_ID` and the bucket, and to a trigger invocation with
no bucket anywhere, each with arbitrary fixed services. -/
theorem claim_C6_witness :
    SyncS3ToAppConfig.handler ⟨none, some ("env"), some ("prof"), some ("strat"), none⟩
        ⟨none, none, none⟩ (fun _ _ => .ok (Json.obj [])) ⟨1, 1, fun _ => "COMPLETE"⟩ =
      ⟨400, .msg ("Missing required parameters: APPLICATION_ID, bucket/CONFIG_BUCKET")⟩ ∧
    TriggerModelTraining.handler ⟨none, none, none⟩ (fun _ => none)
        (fun _ _ => .ok (Json.obj [])) (fun _ _ => []) (fun _ => "r") =
      .error (.valueError
        ("Bucket name must be provided in event or as environment variable")) := by
  constructor
  · exact claim_C6_validation.1 ⟨none, some ("env"), some ("prof"), some ("strat"), none⟩
      ⟨none, none, none⟩ (by decide) (fun _ _ => .ok (Json.obj []))
      ⟨1, 1, fun _ => "COMPLETE"⟩
  · exact claim_C6_validation.2.2 ⟨none, none, none⟩ (fun _ => none) (by decide)
      (fun _ _ => .ok (Json.obj [])) (fun _ _ => []) (fun _ => "r")

/-- Claim C7: the next output version is `max(existing) + 1` over the
versions parsed from the storage listing, and 1 when none exist: the trigger
handler produces version 1 (and `v1` in the job name and output path) for an
empty listing and version 4 for a listing holding `v1` and `v3`; the key
parser extracts `[1, 3]` from that listing, and in general the next version
strictly exceeds every existing version and is one more than one of them. -/
theorem claim_C7_next_version :
    (TriggerModelTraining.handler ⟨some ("bkt"), none, none⟩ (fun _ => none)
        TriggerModelTraining.exampleStore (fun _ _ => []) (fun _ => "resp") =
      .ok ⟨200, ⟨"job-v1", "s3://bkt/models/output/v1/", 1, "resp"⟩⟩) ∧
    (TriggerModelTraining.handler ⟨some ("bkt"), none, none⟩ (fun _ => none)
        TriggerModelTraining.exampleStore
        (fun _ _ => ["models/output/v1/model.tar.gz", "models/output/v3/model.tar.gz"])
        (fun _ => "resp") =
      .ok ⟨200, ⟨"job-v4", "s3://bkt/models/output/v4/", 4, "resp"⟩⟩) ∧
    (TriggerModelTraining.computeVersions
        ["models/output/v1/model.tar.gz", "models/output/v3/model.tar.gz"] =
      .ok [1, 3]) ∧
    TriggerModelTraining.nextVersion [] = 1 ∧
    TriggerModelTraining.nextVersion [1, 3] = 4 ∧
    (∀ vs : List Int, vs ≠ [] →
      (∀ x ∈ vs, x + 1 ≤ TriggerModelTraining.nextVersion vs) ∧
      ∃ m ∈ vs, TriggerModelTraining.nextVersion vs = m + 1) :=
  ⟨rfl, rfl, rfl, rfl, rfl, fun vs h => TriggerModelTraining.nextVersion_spec vs h⟩

/-- Claim C7, witness: the general clause at the version set `{1, 3}` — the
next version exceeds both and equals one of them plus one. -/
theorem claim_C7_witness :
    (∀ x ∈ ([1, 3] : List Int), x + 1 ≤ TriggerModelTraining.nextVersion [1, 3]) ∧
    ∃ m ∈ ([1, 3] : List Int), TriggerModelTraining.nextVersion [1, 3] = m + 1 :=
  claim_C7_next_version.2.2.2.2.2 [1, 3] (by decide)

/-- Claim C8: publishing a document serializes it with `json.dumps` and a
fetch decodes the stored content with `json.loads`; assuming the
distribution service returns the published bytes unchanged, the fetched
document equals the published one for every document in the model. -/
theorem claim_C8_roundtrip :
    ∀ d : Json,
      ParameterFetcher.decodeContent (SyncS3ToAppConfig.publishedContent d) = some d :=
  fun d => JsonWire.jsonLoads_jsonDumps d

/-- Claim C9 (amended): the sync and parameter-fetch entry points convert
every exception escaping their bodies into a 500 response carrying the
stringified cause, but the training-trigger entry point has no top-level
catch: it logs a storage-load failure and re-raises it, so the exception
propagates to the caller (see the counterexample). -/
theorem claim_C9_exception_handling :
    (∀ (env : SyncS3ToAppConfig.SyncEnv) (event : SyncS3ToAppConfig.SyncEvent)
        (store : S3Store) (svc : SyncS3ToAppConfig.AppConfigService) (e : PyError),
      SyncS3ToAppConfig.handlerBody env event store svc = .error e →
      SyncS3ToAppConfig.handler env event store svc = ⟨500, .msg e.text⟩) ∧
    (∀ (event : ParameterFetcher.FetchEvent) (env : String → Option String)
        (doc : Json) (e : PyError),
      ParameterFetcher.handlerBody event env doc = .error e →
      ParameterFetcher.handler event env doc = ⟨500, .msg e.text⟩) ∧
    (∀ (event : TriggerModelTraining.TriggerEvent) (env : String → Option String)
        (store : S3Store) (listObjs : String → String → List String)
        (sagemaker : String → String) (code msg : String),
      truthyOpt (event.bucket_name <|> env ("CONFIG_BUCKET_NAME")) = true →
      store ((event.bucket_name <|> env ("CONFIG_BUCKET_NAME")).getD (""))
          (match event.config_key with
           | some v => v
           | none => (env ("CONFIG_KEY")).getD ("configs/model-training-config.json")) =
        .err code msg →
      TriggerModelTraining.handler event env store listObjs sagemaker =
        .error (.clientError msg)) := by
  refine ⟨?_, ?_, ?_⟩
  · intro env event store svc e h
    unfold SyncS3ToAppConfig.handler
    rw [h]
  · intro event env doc e h
    unfold ParameterFetcher.handler
    rw [h]
  · intro event env store listObjs sagemaker code msg hb hs
    unfold TriggerModelTraining.handler
    simp only [hb, if_true, hs]
    rfl

/-- Claim C9, counterexample to the original statement: a storage failure in
the training trigger is not converted into a 500 response — the handler's
result is the propagated exception. -/
theorem claim_C9_counterexample :
    TriggerModelTraining.handler ⟨some ("bkt"), none, none⟩ (fun _ => none)
        (fun _ _ => .err ("AccessDenied") ("An error occurred (AccessDenied)"))
        (fun _ _ => []) (fun _ => "resp") =
      .error (.clientError ("An error occurred (AccessDenied)")) := rfl

/-- Claim C9, witness: the amended theorem applied to a sync body that
raises `AttributeError` on a non-object document, a fetch body that raises
`TypeError` on a non-mapping traversal, and a trigger whose storage load
fails. -/
theorem claim_C9_witness :
    SyncS3ToAppConfig.handler
      ⟨some ("app"), some ("env"), some ("prof"), some ("strat"), some ("bkt")⟩
      ⟨some ("b"), none, some false⟩ (fun _ _ => .ok (Json.arr []))
      ⟨1, 2, fun _ => "COMPLETE"⟩ =
      ⟨500, .msg ("object has no attribute \x27keys\x27")⟩ ∧
    ParameterFetcher.handler ⟨some ("a"), some ("e"), some ("p"), some ("c.d")⟩
      (fun _ => none) (Json.obj [("c", Json.bool true)]) =
      ⟨500, .msg ("argument of type \x27bool\x27 is not iterable")⟩ ∧
    TriggerModelTraining.handler ⟨some ("bkt2"), none, none⟩ (fun _ => none)
      (fun _ _ => .err ("Boom") ("kaboom")) (fun _ _ => []) (fun _ => "r") =
      .error (.clientError ("kaboom")) := by
  refine ⟨?_, ?_, ?_⟩
  · exact claim_C9_exception_handling.1
      ⟨some ("app"), some ("env"), some ("prof"), some ("strat"), some ("bkt")⟩
      ⟨some ("b"), none, some false⟩ (fun _ _ => .ok (Json.arr []))
      ⟨1, 2, fun _ => "COMPLETE"⟩
      (.attributeError ("object has no attribute \x27keys\x27")) rfl
  · exact claim_C9_exception_handling.2.1 ⟨some ("a"), some ("e"), some ("p"), some ("c.d")⟩
      (fun _ => none) (Json.obj [("c", Json.bool true)])
      (.typeError ("argument of type \x27bool\x27 is not iterable")) rfl
  · exact claim_C9_exception_handling.2.2 ⟨some ("bkt2"), none, none⟩ (fun _ => none)
      (fun _ _ => .err ("Boom") ("kaboom")) (fun _ _ => []) (fun _ => "r")
      ("Boom") ("kaboom") (by decide) rfl
